import Mathlib

/-!
Verification development for the `ScientificPaperAudit` repository.

The subject of the claims is `src/utils/ai_analyzer.py`, class `PaperAnalyzer`:
its batch aggregation routine `aggregate_patterns` (with the helpers
`_calculate_trend` and `_detect_trend_direction`) and the per-paper assessment
routine `analyze_paper` (with `_parse_analysis_response` and
`_generate_fallback_analysis`).

Modelling conventions:
* A pandas `DataFrame` is a column-name list plus a list of rows, each row an
  association list from column name to cell value.  Cell values are rationals
  (`ℚ` stands in for Python/NumPy floats and ints), strings, or month periods.
* Quantities that pandas reports as floating-point and that involve square
  roots (standard deviations, Pearson correlation coefficients) are modelled
  over `ℝ`; a pandas `NaN` is modelled as `Option.none`.
* Exceptions are modelled with `Except`: `AggErr.keyError c` stands for the
  pandas `KeyError` raised on a missing column `c`, and `AggErr.parseError s`
  for the exception `pd.to_datetime` raises on an unparseable value `s`.
* `pd.to_datetime(...).dt.to_period('M')` is modelled at month granularity on
  ISO-style `YYYY-MM[-DD...]` strings; a month period is coded as
  `year * 12 + (month - 1)`, which is monotone in chronological order.
-/

/-- A cell of the results table: a number, a string, or a month period
(the value produced by the `year_month` assignment). -/
inductive Value where
  | num (q : ℚ)
  | str (s : String)
  | period (m : ℕ)
deriving DecidableEq, Repr

/-- One row of the results table, as an association list from column name to
cell value (the dict built by `process_paper` in `analyze_batch`). -/
abbrev Row := List (String × Value)

/-- The results table handed to `aggregate_patterns`: its column set and its
rows in order. -/
structure DataFrame where
  cols : List String
  rows : List Row
deriving DecidableEq, Repr

/-- Errors `aggregate_patterns` can raise: a pandas `KeyError` for a missing
column, or the parse failure of `pd.to_datetime` on a bad timestamp value. -/
inductive AggErr where
  | keyError (col : String)
  | parseError (v : String)
deriving DecidableEq, Repr

/-- Read a cell from a row; rows produced by `analyze_batch` carry every
declared column, so the default is never observed on well-formed data. -/
def cellOf (r : Row) (c : String) : Value :=
  (r.lookup c).getD (Value.num 0)

/-- Numeric view of a cell, as used by pandas column arithmetic. -/
def toQ : Value → ℚ
  | Value.num q => q
  | Value.str _ => 0
  | Value.period _ => 0

/-- Column access `results[c]`: the per-row values in row order, or the
pandas `KeyError` when the column is absent. -/
def DataFrame.getCol (df : DataFrame) (c : String) : Except AggErr (List Value) :=
  if c ∈ df.cols then Except.ok (df.rows.map (fun r => cellOf r c))
  else Except.error (AggErr.keyError c)

/-- The numeric contents of a column. -/
def qlist (vs : List Value) : List ℚ := vs.map toQ

/-- Split a character list on the dash separator (the shape of
`s.split('-')`). -/
def splitDash : List Char → List (List Char)
  | [] => [[]]
  | c :: cs =>
    let r := splitDash cs
    if c = '-' then [] :: r
    else
      match r with
      | [] => [[c]]
      | g :: gs => (c :: g) :: gs

/-- Read a non-empty all-digit character group as a natural number. -/
def digitsToNat? (cs : List Char) : Option ℕ :=
  if cs = [] then none
  else if cs.all (fun c => c.isDigit) then
    some (cs.foldl (fun n c => n * 10 + (c.toNat - 48)) 0)
  else none

/-- `pd.to_datetime(s).dt.to_period('M')`, modelled on ISO `YYYY-MM[-DD...]`
strings: the month period code `year * 12 + (month - 1)`, or `none` when the
string does not parse. -/
def parseMonth (s : String) : Option ℕ :=
  match splitDash s.toList with
  | y :: m :: _ =>
    match digitsToNat? y, digitsToNat? m with
    | some yn, some mn => if 1 ≤ mn ∧ mn ≤ 12 then some (yn * 12 + (mn - 1)) else none
    | _, _ => none
  | _ => none

/-- The month period of a row's `published` cell, when it parses. -/
def pubMonthOf (r : Row) : Option ℕ :=
  match cellOf r "published" with
  | Value.str s => parseMonth s
  | _ => none

/-- The text `pd.to_datetime` would report for a row's `published` cell. -/
def pubStr (r : Row) : String :=
  match cellOf r "published" with
  | Value.str s => s
  | Value.num q => toString q
  | Value.period m => toString m

/-- `series.mean()`: `NaN` (`none`) on an empty series. -/
def listMean (l : List ℚ) : Option ℚ :=
  if l.length = 0 then none else some (l.sum / (l.length : ℚ))

/-- The sample variance behind `series.std()` (`ddof = 1`): `NaN` (`none`)
for fewer than two observations. -/
def sampleVar (l : List ℚ) : Option ℚ :=
  if l.length < 2 then none
  else
    let m := l.sum / (l.length : ℚ)
    some ((l.map (fun x => (x - m) ^ 2)).sum / ((l.length : ℚ) - 1))

/-- `series.std()` (sample standard deviation, `ddof = 1`): `NaN` (`none`)
for fewer than two observations. -/
noncomputable def listStd (l : List ℚ) : Option ℝ :=
  (sampleVar l).map (fun v => Real.sqrt (v : ℝ))

/-- `series.median()`: the middle of the sorted values (mean of the two
middles for even length), `NaN` (`none`) on an empty series. -/
def listMedian (l : List ℚ) : Option ℚ :=
  let s := l.mergeSort (fun a b => a ≤ b)
  let n := s.length
  if n = 0 then none
  else if n % 2 = 1 then some (s.getD (n / 2) 0)
  else some ((s.getD (n / 2 - 1) 0 + s.getD (n / 2) 0) / 2)

/-- `PaperAnalyzer._calculate_trend`: endpoint-slope trend label of a series.
`slope = (series.iloc[-1] - series.iloc[0]) / len(series)`; below two points
or below `0.1` in magnitude the label is `"stable"`, otherwise the sign of
the slope picks `"increasing"` or `"decreasing"`. -/
def _calculate_trend (s : List ℚ) : String :=
  if s.length < 2 then "stable"
  else
    let slope := (s.getLastD 0 - s.headD 0) / (s.length : ℚ)
    if |slope| < 1 / 10 then "stable"
    else if slope > 0 then "increasing" else "decreasing"

/-- The centred values `x - mean` of a series (the sums behind
`Series.corr`). -/
def demean (l : List ℚ) : List ℚ :=
  let m := l.sum / (l.length : ℚ)
  l.map (fun x => x - m)

/-- Centred cross-product sum: `Σ (x - x̄)(y - ȳ)`. -/
def crossSum (xs ys : List ℚ) : ℚ :=
  (((demean xs).zip (demean ys)).map (fun p => p.1 * p.2)).sum

/-- `Series.corr` (Pearson): `NaN` (`none`) when either column has zero
variance (including empty or single-row batches), otherwise
`Σ(x-x̄)(y-ȳ) / sqrt(Σ(x-x̄)² · Σ(y-ȳ)²)`. -/
noncomputable def pearson (xs ys : List ℚ) : Option ℝ :=
  if crossSum xs xs = 0 ∨ crossSum ys ys = 0 then none
  else some ((crossSum xs ys : ℝ) / Real.sqrt ((crossSum xs xs : ℝ) * (crossSum ys ys : ℝ)))

/-- Python `round(x, 2)` on the correlation value, modelled as rounding to
the nearest hundredth. -/
noncomputable def roundTo2 (x : ℝ) : ℝ := ((round (100 * x) : ℤ) : ℝ) / 100

/-- The `confidence_trends[category]` record: mean, standard deviation,
median and trend label of the per-row confidence series. -/
structure ConfidenceTrend where
  mean : Option ℚ
  std : Option ℝ
  median : Option ℚ
  trend : String

/-- The `severity_distribution[category]` record: row counts of the three
issue-count buckets. -/
structure SeverityDist where
  low : ℕ
  medium : ℕ
  high : ℕ
deriving DecidableEq, Repr

/-- One month bucket of the temporal summary: the period and the mean and
standard deviation of the category's issue counts over that month. -/
structure MonthStat where
  month : ℕ
  meanIssues : ℚ
  stdIssues : Option ℝ

/-- The `temporal_patterns` entry: per category the retained monthly
statistics, and per category a trend label over the monthly means. -/
structure TemporalPatterns where
  monthly_averages : List (String × List MonthStat)
  trend_direction : List (String × String)

/-- The dictionary returned by `aggregate_patterns` (`common_issues` is
initialised empty and never filled by the code). -/
structure PatternStats where
  common_issues : List (String × ℚ)
  severity_distribution : List (String × SeverityDist)
  confidence_trends : List (String × ConfidenceTrend)
  error_correlations : List (String × List (String × ℝ))
  temporal_patterns : TemporalPatterns

/-- `PaperAnalyzer.error_categories`, the fixed category set. -/
def error_categories : List String :=
  ["Methodology", "Statistical Analysis", "Data Integrity",
   "Citation Issues", "Technical Accuracy"]

/-- The confidence column name of a category. -/
def confCol (c : String) : String := c ++ "_confidence"

/-- The issues column name of a category. -/
def issuesCol (c : String) : String := c ++ "_issues"

/-- The numeric confidence series of a category, in row-appearance order. -/
def confsOf (df : DataFrame) (c : String) : List ℚ :=
  df.rows.map (fun r => toQ (cellOf r (confCol c)))

/-- The numeric issue-count series of a category, in row-appearance order. -/
def issuesOf (df : DataFrame) (c : String) : List ℚ :=
  df.rows.map (fun r => toQ (cellOf r (issuesCol c)))

/-- The severity bucket counts of an issues series: `issues <= 1` is low,
`1 < issues <= 3` is medium, `issues > 3` is high. -/
def severityOf (issues : List ℚ) : SeverityDist :=
  { low := issues.countP (fun q => decide (q ≤ 1))
    medium := issues.countP (fun q => decide (1 < q) && decide (q ≤ 3))
    high := issues.countP (fun q => decide (3 < q)) }

/-- The `confidence_trends` record of one confidence series. -/
noncomputable def confTrendOf (confs : List ℚ) : ConfidenceTrend :=
  { mean := listMean confs
    std := listStd confs
    median := listMedian confs
    trend := _calculate_trend confs }

/-- The single correlation-set entry the loop body
`if abs(corr) > 0.3: correlations[other_cat] = round(corr, 2)` contributes
for one other category (empty when the correlation is `NaN` or small). -/
noncomputable def corrEntry (other : String) (xs ys : List ℚ) : List (String × ℝ) :=
  match pearson xs ys with
  | none => []
  | some r => if |r| > 3 / 10 then [(other, roundTo2 r)] else []

/-- Parse the `published` cell of every row in order, failing like
`pd.to_datetime` on the first unparseable value. -/
def monthsOfRows : List Row → Except AggErr (List ℕ)
  | [] => Except.ok []
  | r :: rs =>
    match pubMonthOf r with
    | none => Except.error (AggErr.parseError (pubStr r))
    | some m => (monthsOfRows rs).map (fun ms => m :: ms)

/-- Set one key of a row, mirroring a pandas cell write: replace the value
when the key exists, otherwise append the new key. -/
def setCell (r : Row) (c : String) (v : Value) : Row :=
  if c ∈ r.map Prod.fst then r.map (fun p => if p.1 = c then (c, v) else p)
  else r ++ [(c, v)]

/-- The column assignment `results[c] = vs`: overwrite the column when it
exists, otherwise append it as the last column. -/
def DataFrame.setCol (df : DataFrame) (c : String) (vs : List Value) : DataFrame :=
  { cols := if c ∈ df.cols then df.cols else df.cols ++ [c]
    rows := (df.rows.zip vs).map (fun p => setCell p.1 c p.2) }

/-- Drop a column from a frame (used to compare frames up to the
`year_month` column the aggregator writes). -/
def eraseCol (df : DataFrame) (c : String) : DataFrame :=
  { cols := df.cols.filter (fun x => x != c)
    rows := df.rows.map (fun r => r.filter (fun p => p.1 != c)) }

/-- `DataFrame.tail(6)` on a grouped frame: the last six entries. -/
def tail6 {α : Type} (l : List α) : List α := l.drop (l.length - 6)

/-- The month periods `groupby('year_month') ... .tail(6)` retains: the
distinct months in ascending (chronological) order, restricted to the most
recent six. -/
def retainedOf (months : List ℕ) : List ℕ :=
  tail6 (months.dedup.mergeSort (fun a b => a ≤ b))

/-- The issue counts of one category over the rows of one month bucket. -/
def groupIssues (pairs : List (Row × ℕ)) (m : ℕ) (cat : String) : List ℚ :=
  (pairs.filter (fun p => p.2 = m)).map (fun p => toQ (cellOf p.1 (issuesCol cat)))

/-- The monthly `agg(['mean', 'std'])` entry of one category and month. -/
noncomputable def monthStatOf (pairs : List (Row × ℕ)) (m : ℕ) (cat : String) : MonthStat :=
  let l := groupIssues pairs m cat
  { month := m, meanIssues := l.sum / (l.length : ℚ), stdIssues := listStd l }

/-- `PaperAnalyzer._detect_trend_direction`: per category, the trend label of
the chronological series of monthly issue-count means of the retained
periods. -/
def _detect_trend_direction (pairs : List (Row × ℕ)) (retained : List ℕ) :
    List (String × String) :=
  error_categories.map (fun cat =>
    (cat, _calculate_trend (retained.map (fun m =>
      (groupIssues pairs m cat).sum / ((groupIssues pairs m cat).length : ℚ)))))

/-- The columns `aggregate_patterns` reads: per category the confidence and
issues columns, plus `published`. -/
def requiredCols : List String :=
  (error_categories.map confCol) ++ (error_categories.map issuesCol) ++ ["published"]

/-- The spec's batch preconditions, as the code actually checks them: all
read columns present and every `published` value parseable. -/
def wellFormed (df : DataFrame) : Bool :=
  requiredCols.all (fun c => decide (c ∈ df.cols)) &&
    df.rows.all (fun r => (pubMonthOf r).isSome)

/-- The month period of every row (only meaningful on well-formed frames,
where every `published` value parses). -/
def monthsValOf (df : DataFrame) : List ℕ :=
  df.rows.map (fun r => (pubMonthOf r).getD 0)

/-- The state of the input frame after the assignment
`results['year_month'] = ...` executed by `aggregate_patterns`. -/
def dfMut (df : DataFrame) : DataFrame :=
  df.setCol "year_month" ((monthsValOf df).map Value.period)

/-- The correlation set of one category on a well-formed batch: the loop over
the other categories, each contributing its `corrEntry`. -/
noncomputable def corrListOf (df : DataFrame) (c : String) : List (String × ℝ) :=
  (error_categories.map (fun o =>
    if o = c then [] else corrEntry o (issuesOf df c) (issuesOf df o))).flatten

/-- The value `aggregate_patterns` returns on a well-formed batch, written
as a pure function of the batch contents. -/
noncomputable def statsOf (df : DataFrame) : PatternStats :=
  let pairs := df.rows.zip (monthsValOf df)
  let retained := retainedOf (monthsValOf df)
  { common_issues := []
    severity_distribution :=
      error_categories.map (fun c => (c, severityOf (issuesOf df c)))
    confidence_trends :=
      error_categories.map (fun c => (c, confTrendOf (confsOf df c)))
    error_correlations :=
      error_categories.map (fun c => (c, corrListOf df c))
    temporal_patterns :=
      { monthly_averages :=
          error_categories.map (fun cat => (cat, retained.map (fun m => monthStatOf pairs m cat)))
        trend_direction := _detect_trend_direction pairs retained } }

/-- One iteration of the per-category loop of `aggregate_patterns`:
confidence statistics, severity buckets and the correlation set of one
category, raising the pandas `KeyError` of the first missing column it
reads. -/
noncomputable def perCatM (df : DataFrame) (category : String) :
    Except AggErr (String × ConfidenceTrend × SeverityDist × List (String × ℝ)) := do
  let confV ← df.getCol (confCol category)
  let issuesV ← df.getCol (issuesCol category)
  let entries ← error_categories.mapM (fun other =>
    if other = category then pure ([] : List (String × ℝ))
    else do
      let oV ← df.getCol (issuesCol other)
      pure (corrEntry other (qlist issuesV) (qlist oV)))
  pure (category,
        confTrendOf (qlist confV),
        severityOf (qlist issuesV),
        entries.flatten)

/-- `PaperAnalyzer.aggregate_patterns`, step for step: the per-category loop
(statistics, severity buckets, correlation sets, raising `KeyError` on any
missing column), then the timestamp parse and the `year_month` column
assignment, then the monthly grouping, `tail(6)` and trend detection.  The
result pairs the returned dictionary with the mutated frame. -/
noncomputable def aggregate_core (df : DataFrame) :
    Except AggErr (PatternStats × DataFrame) := do
  let catStats ← error_categories.mapM (perCatM df)
  let _pub ← df.getCol "published"
  let months ← monthsOfRows df.rows
  let df2 := df.setCol "year_month" (months.map Value.period)
  let pairs := df.rows.zip months
  let retained := retainedOf months
  pure ({ common_issues := []
          severity_distribution := catStats.map (fun p => (p.1, p.2.2.1))
          confidence_trends := catStats.map (fun p => (p.1, p.2.1))
          error_correlations := catStats.map (fun p => (p.1, p.2.2.2))
          temporal_patterns :=
            { monthly_averages :=
                error_categories.map (fun cat =>
                  (cat, retained.map (fun m => monthStatOf pairs m cat)))
              trend_direction := _detect_trend_direction pairs retained } },
        df2)

/-- `aggregate_patterns` as the caller observes it: the raised error or the
returned dictionary, together with the (possibly mutated) input frame. -/
noncomputable def aggregate_patterns (df : DataFrame) :
    Except AggErr PatternStats × DataFrame :=
  match aggregate_core df with
  | Except.ok p => (Except.ok p.1, p.2)
  | Except.error e => (Except.error e, df)


/-! ### Basic lemmas about the `Except` plumbing and column access -/

theorem except_ok_bind {ε α β : Type} {a : α} {f : α → Except ε β} :
    (Except.ok a >>= f) = f a := rfl

theorem except_pure_def {ε α : Type} {a : α} :
    (pure a : Except ε α) = Except.ok a := rfl

theorem except_bind_ok_iff {ε α β : Type} {x : Except ε α} {f : α → Except ε β} {b : β} :
    (x >>= f) = Except.ok b ↔ ∃ a, x = Except.ok a ∧ f a = Except.ok b := by
  cases x <;> simp [Bind.bind, Except.bind]

theorem except_bind_error_iff {ε α β : Type} {x : Except ε α} {f : α → Except ε β} {e : ε} :
    (x >>= f) = Except.error e ↔
      x = Except.error e ∨ ∃ a, x = Except.ok a ∧ f a = Except.error e := by
  cases x <;> simp [Bind.bind, Except.bind]

theorem except_pure_ok_iff {ε α : Type} {a b : α} :
    (pure a : Except ε α) = Except.ok b ↔ b = a := by
  simp [pure, Except.pure, eq_comm]

theorem except_pure_ne_error {ε α : Type} {a : α} {e : ε} :
    (pure a : Except ε α) = Except.error e ↔ False := by
  simp [pure, Except.pure]

theorem getCol_eq_ok_iff {df : DataFrame} {c : String} {v : List Value} :
    df.getCol c = Except.ok v ↔ c ∈ df.cols ∧ v = df.rows.map (fun r => cellOf r c) := by
  unfold DataFrame.getCol
  split
  case isTrue h =>
    constructor
    · intro hv
      injection hv with hv
      exact ⟨h, hv.symm⟩
    · rintro ⟨-, rfl⟩
      rfl
  case isFalse h =>
    constructor
    · intro hv
      exact absurd hv (by simp)
    · rintro ⟨hc, -⟩
      exact absurd hc h

theorem getCol_eq_error_iff {df : DataFrame} {c : String} {e : AggErr} :
    df.getCol c = Except.error e ↔ c ∉ df.cols ∧ e = AggErr.keyError c := by
  unfold DataFrame.getCol
  split
  case isTrue h =>
    constructor
    · intro hv
      exact absurd hv (by simp)
    · rintro ⟨hc, -⟩
      exact absurd h hc
  case isFalse h =>
    constructor
    · intro hv
      injection hv with hv
      exact ⟨h, hv.symm⟩
    · rintro ⟨-, rfl⟩
      rfl

theorem getCol_of_mem {df : DataFrame} {c : String} (h : c ∈ df.cols) :
    df.getCol c = Except.ok (df.rows.map (fun r => cellOf r c)) := by
  unfold DataFrame.getCol
  rw [if_pos h]

theorem except_map_eq_ok_iff {ε α β : Type} {x : Except ε α} {g : α → β} {b : β} :
    Except.map g x = Except.ok b ↔ ∃ a, x = Except.ok a ∧ b = g a := by
  cases x <;> simp [Except.map, eq_comm]

theorem except_map_eq_error_iff {ε α β : Type} {x : Except ε α} {g : α → β} {e : ε} :
    Except.map g x = Except.error e ↔ x = Except.error e := by
  cases x <;> simp [Except.map]

theorem monthsOfRows_eq_ok_iff {rs : List Row} {ms : List ℕ} :
    monthsOfRows rs = Except.ok ms ↔
      (∀ r ∈ rs, (pubMonthOf r).isSome = true) ∧
        ms = rs.map (fun r => (pubMonthOf r).getD 0) := by
  induction rs generalizing ms with
  | nil =>
    simp only [monthsOfRows, List.not_mem_nil, false_implies, implies_true, true_and,
      List.map_nil]
    constructor
    · intro hv
      injection hv with hv
      exact hv.symm
    · rintro rfl
      rfl
  | cons r rs ih =>
    cases h : pubMonthOf r with
    | none => simp [monthsOfRows, h]
    | some m =>
      simp only [monthsOfRows, h, except_map_eq_ok_iff, ih, List.map_cons, List.mem_cons]
      constructor
      · rintro ⟨a, ⟨hall, rfl⟩, rfl⟩
        refine ⟨fun x hx => ?_, by simp [h]⟩
        rcases hx with rfl | hx
        · simp [h]
        · exact hall x hx
      · rintro ⟨hall, rfl⟩
        exact ⟨rs.map (fun x => (pubMonthOf x).getD 0),
               ⟨fun x hx => hall x (Or.inr hx), rfl⟩, by simp [h]⟩

theorem monthsOfRows_eq_error {rs : List Row} {e : AggErr}
    (h : monthsOfRows rs = Except.error e) :
    ∃ r ∈ rs, pubMonthOf r = none ∧ e = AggErr.parseError (pubStr r) := by
  induction rs with
  | nil => simp [monthsOfRows] at h
  | cons r rs ih =>
    cases hp : pubMonthOf r with
    | none =>
      simp only [monthsOfRows, hp] at h
      injection h with h
      exact ⟨r, List.mem_cons_self r rs, hp, h.symm⟩
    | some m =>
      simp only [monthsOfRows, hp, except_map_eq_error_iff] at h
      obtain ⟨x, hx, h1, h2⟩ := ih h
      exact ⟨x, List.mem_cons_of_mem r hx, h1, h2⟩

theorem qlist_col (df : DataFrame) (c : String) :
    qlist (df.rows.map (fun r => cellOf r c)) = df.rows.map (fun r => toQ (cellOf r c)) := by
  simp [qlist, List.map_map]

theorem wf_col {df : DataFrame} (h : wellFormed df = true) {c : String}
    (hc : c ∈ requiredCols) : c ∈ df.cols := by
  unfold wellFormed at h
  rw [Bool.and_eq_true] at h
  have h1 := h.1
  rw [List.all_eq_true] at h1
  exact of_decide_eq_true (h1 c hc)

theorem wf_parse {df : DataFrame} (h : wellFormed df = true) :
    ∀ r ∈ df.rows, (pubMonthOf r).isSome = true := by
  unfold wellFormed at h
  rw [Bool.and_eq_true] at h
  have h2 := h.2
  rw [List.all_eq_true] at h2
  exact h2

/-- Membership of category column names in the required-column list. -/
theorem confCol_mem {c : String} (hc : c ∈ error_categories) : confCol c ∈ requiredCols := by
  fin_cases hc <;> decide

theorem issuesCol_mem {c : String} (hc : c ∈ error_categories) : issuesCol c ∈ requiredCols := by
  fin_cases hc <;> decide

/-- The correlation loop of one category succeeds once every issues column is
present, and returns the per-other-category entries in loop order. -/
theorem corr_loop_ok (df : DataFrame) (ys : List ℚ) (c : String) :
    ∀ l : List String, (∀ o ∈ l, issuesCol o ∈ df.cols) →
      (l.mapM (fun other =>
        if other = c then pure ([] : List (String × ℝ))
        else do
          let oV ← df.getCol (issuesCol other)
          pure (corrEntry other ys (qlist oV))) : Except AggErr _)
      = Except.ok (l.map (fun o =>
          if o = c then []
          else corrEntry o ys (qlist (df.rows.map (fun r => cellOf r (issuesCol o)))))) := by
  intro l hl
  induction l with
  | nil => rfl
  | cons o l ih =>
    rw [List.mapM_cons, ih (fun x hx => hl x (List.mem_cons_of_mem o hx))]
    by_cases ho : o = c
    · rw [if_pos ho, List.map_cons, if_pos ho]
      rfl
    · rw [if_neg ho, getCol_of_mem (hl o (List.mem_cons_self o l)), List.map_cons, if_neg ho]
      rfl

/-- On a well-formed batch one iteration of the category loop succeeds and
yields the category's statistics, severity buckets and correlation set. -/
theorem perCatM_ok (df : DataFrame) (h : wellFormed df = true) {c : String}
    (hc : c ∈ error_categories) :
    perCatM df c =
      Except.ok (c, confTrendOf (confsOf df c), severityOf (issuesOf df c), corrListOf df c) := by
  have hall : ∀ o ∈ error_categories, issuesCol o ∈ df.cols :=
    fun o ho => wf_col h (issuesCol_mem ho)
  rw [perCatM, getCol_of_mem (wf_col h (confCol_mem hc))]
  simp only [except_ok_bind]
  rw [getCol_of_mem (wf_col h (issuesCol_mem hc))]
  simp only [except_ok_bind]
  rw [corr_loop_ok df (qlist (df.rows.map (fun r => cellOf r (issuesCol c)))) c
    error_categories hall]
  simp only [except_ok_bind]
  rw [except_pure_def]
  simp only [qlist_col, confsOf, issuesOf, corrListOf]

set_option maxHeartbeats 1000000 in
/-- On a well-formed batch the aggregation completes and returns the report
`statsOf` together with the mutated frame `dfMut`. -/
theorem aggregate_core_ok (df : DataFrame) (h : wellFormed df = true) :
    aggregate_core df = Except.ok (statsOf df, dfMut df) := by
  have gp := getCol_of_mem (wf_col h (c := "published") (by decide))
  have gm : monthsOfRows df.rows = Except.ok (monthsValOf df) :=
    monthsOfRows_eq_ok_iff.mpr ⟨wf_parse h, rfl⟩
  have p1 := perCatM_ok df h (c := "Methodology") (by decide)
  have p2 := perCatM_ok df h (c := "Statistical Analysis") (by decide)
  have p3 := perCatM_ok df h (c := "Data Integrity") (by decide)
  have p4 := perCatM_ok df h (c := "Citation Issues") (by decide)
  have p5 := perCatM_ok df h (c := "Technical Accuracy") (by decide)
  rw [aggregate_core]
  simp only [error_categories, List.mapM_cons, List.mapM_nil, p1, p2, p3, p4, p5, gp, gm]
  rfl

theorem mapM_ok_imp {ε α β : Type} {f : α → Except ε β} :
    ∀ {l : List α} {v}, l.mapM f = Except.ok v → ∀ a ∈ l, ∃ b, f a = Except.ok b := by
  intro l
  induction l with
  | nil =>
    intro v h a ha
    exact absurd ha (List.not_mem_nil a)
  | cons x l ih =>
    intro v h a ha
    rw [List.mapM_cons] at h
    obtain ⟨b, hb, h⟩ := except_bind_ok_iff.mp h
    obtain ⟨bs, hbs, -⟩ := except_bind_ok_iff.mp h
    rcases List.mem_cons.mp ha with rfl | ha
    · exact ⟨b, hb⟩
    · exact ih hbs a ha

theorem mapM_error_imp {ε α β : Type} {f : α → Except ε β} :
    ∀ {l : List α} {e}, l.mapM f = Except.error e → ∃ a ∈ l, f a = Except.error e := by
  intro l
  induction l with
  | nil =>
    intro e h
    rw [List.mapM_nil] at h
    exact absurd h (by rw [except_pure_ne_error]; exact not_false)
  | cons x l ih =>
    intro e h
    rw [List.mapM_cons] at h
    rw [except_bind_error_iff] at h
    rcases h with h | ⟨b, -, h⟩
    · exact ⟨x, List.mem_cons_self x l, h⟩
    · rw [except_bind_error_iff] at h
      rcases h with h | ⟨bs, -, h⟩
      · obtain ⟨a, ha, h⟩ := ih h
        exact ⟨a, List.mem_cons_of_mem x ha, h⟩
      · exact absurd h (by rw [except_pure_ne_error]; exact not_false)

theorem corr_loop_ok_imp {df : DataFrame} {ys : List ℚ} {c : String} :
    ∀ {l : List String} {v},
      (l.mapM (fun other =>
        if other = c then pure ([] : List (String × ℝ))
        else do
          let oV ← df.getCol (issuesCol other)
          pure (corrEntry other ys (qlist oV))) : Except AggErr _) = Except.ok v →
      ∀ o ∈ l, o ≠ c → issuesCol o ∈ df.cols := by
  intro l v h o ho hne
  obtain ⟨b, hb⟩ := mapM_ok_imp h o ho
  rw [if_neg hne] at hb
  obtain ⟨oV, hoV, -⟩ := except_bind_ok_iff.mp hb
  exact (getCol_eq_ok_iff.mp hoV).1

theorem perCatM_ok_imp {df : DataFrame} {c : String} {t}
    (h : perCatM df c = Except.ok t) :
    confCol c ∈ df.cols ∧ issuesCol c ∈ df.cols ∧
      ∀ o ∈ error_categories, o ≠ c → issuesCol o ∈ df.cols := by
  rw [perCatM] at h
  obtain ⟨confV, hconf, h⟩ := except_bind_ok_iff.mp h
  obtain ⟨issuesV, hiss, h⟩ := except_bind_ok_iff.mp h
  obtain ⟨entries, hent, -⟩ := except_bind_ok_iff.mp h
  exact ⟨(getCol_eq_ok_iff.mp hconf).1, (getCol_eq_ok_iff.mp hiss).1,
    corr_loop_ok_imp hent⟩

theorem corr_loop_error_imp {df : DataFrame} {ys : List ℚ} {c : String} :
    ∀ {l : List String} {e},
      (l.mapM (fun other =>
        if other = c then pure ([] : List (String × ℝ))
        else do
          let oV ← df.getCol (issuesCol other)
          pure (corrEntry other ys (qlist oV))) : Except AggErr _) = Except.error e →
      ∃ o ∈ l, o ≠ c ∧ e = AggErr.keyError (issuesCol o) ∧ issuesCol o ∉ df.cols := by
  intro l e h
  obtain ⟨o, ho, hb⟩ := mapM_error_imp h
  by_cases hc : o = c
  · rw [if_pos hc] at hb
    exact absurd hb (by rw [except_pure_ne_error]; exact not_false)
  · rw [if_neg hc] at hb
    rw [except_bind_error_iff] at hb
    rcases hb with hb | ⟨oV, -, hb⟩
    · obtain ⟨hmem, rfl⟩ := getCol_eq_error_iff.mp hb
      exact ⟨o, ho, hc, rfl, hmem⟩
    · exact absurd hb (by rw [except_pure_ne_error]; exact not_false)

theorem perCatM_error_imp {df : DataFrame} {c : String} {e : AggErr}
    (h : perCatM df c = Except.error e) :
    ∃ col, e = AggErr.keyError col ∧ col ∉ df.cols ∧
      (col = confCol c ∨ col = issuesCol c ∨ ∃ o ∈ error_categories, col = issuesCol o) := by
  rw [perCatM] at h
  rw [except_bind_error_iff] at h
  rcases h with h | ⟨confV, -, h⟩
  · obtain ⟨hmem, rfl⟩ := getCol_eq_error_iff.mp h
    exact ⟨confCol c, rfl, hmem, Or.inl rfl⟩
  · rw [except_bind_error_iff] at h
    rcases h with h | ⟨issuesV, -, h⟩
    · obtain ⟨hmem, rfl⟩ := getCol_eq_error_iff.mp h
      exact ⟨issuesCol c, rfl, hmem, Or.inr (Or.inl rfl)⟩
    · rw [except_bind_error_iff] at h
      rcases h with h | ⟨entries, -, h⟩
      · obtain ⟨o, ho, -, rfl, hmem⟩ := corr_loop_error_imp h
        exact ⟨issuesCol o, rfl, hmem, Or.inr (Or.inr ⟨o, ho, rfl⟩)⟩
      · exact absurd h (by rw [except_pure_ne_error]; exact not_false)

/-- Success of the aggregation forces the spec's batch preconditions: it can
only return when every read column is present and every timestamp parses. -/
theorem wellFormed_of_core_ok {df : DataFrame} {p}
    (h : aggregate_core df = Except.ok p) : wellFormed df = true := by
  rw [aggregate_core] at h
  obtain ⟨catStats, hcs, h⟩ := except_bind_ok_iff.mp h
  obtain ⟨pubV, hpub, h⟩ := except_bind_ok_iff.mp h
  obtain ⟨months, hm, -⟩ := except_bind_ok_iff.mp h
  have hcat : ∀ c ∈ error_categories, confCol c ∈ df.cols ∧ issuesCol c ∈ df.cols := by
    intro c hc
    obtain ⟨t, ht⟩ := mapM_ok_imp hcs c hc
    exact ⟨(perCatM_ok_imp ht).1, (perCatM_ok_imp ht).2.1⟩
  rw [wellFormed, Bool.and_eq_true]
  constructor
  · rw [List.all_eq_true]
    intro c hc
    rw [decide_eq_true_iff]
    fin_cases hc
    · exact (hcat "Methodology" (by decide)).1
    · exact (hcat "Statistical Analysis" (by decide)).1
    · exact (hcat "Data Integrity" (by decide)).1
    · exact (hcat "Citation Issues" (by decide)).1
    · exact (hcat "Technical Accuracy" (by decide)).1
    · exact (hcat "Methodology" (by decide)).2
    · exact (hcat "Statistical Analysis" (by decide)).2
    · exact (hcat "Data Integrity" (by decide)).2
    · exact (hcat "Citation Issues" (by decide)).2
    · exact (hcat "Technical Accuracy" (by decide)).2
    · exact (getCol_eq_ok_iff.mp hpub).1
  · rw [List.all_eq_true]
    exact (monthsOfRows_eq_ok_iff.mp hm).1

/-- Any error the aggregation raises names a missing required column or an
unparseable `published` value of some row. -/
theorem core_error_cases {df : DataFrame} {e : AggErr}
    (h : aggregate_core df = Except.error e) :
    (∃ c, e = AggErr.keyError c ∧ c ∈ requiredCols ∧ c ∉ df.cols) ∨
    (∃ r, r ∈ df.rows ∧ pubMonthOf r = none ∧ e = AggErr.parseError (pubStr r)) := by
  rw [aggregate_core] at h
  rw [except_bind_error_iff] at h
  rcases h with h | ⟨catStats, -, h⟩
  · obtain ⟨c, hc, hcat⟩ := mapM_error_imp h
    obtain ⟨col, rfl, hmem, hcol⟩ := perCatM_error_imp hcat
    left
    refine ⟨col, rfl, ?_, hmem⟩
    rcases hcol with rfl | rfl | ⟨o, ho, rfl⟩
    · exact confCol_mem hc
    · exact issuesCol_mem hc
    · exact issuesCol_mem ho
  · rw [except_bind_error_iff] at h
    rcases h with h | ⟨pubV, -, h⟩
    · obtain ⟨hmem, rfl⟩ := getCol_eq_error_iff.mp h
      left
      exact ⟨"published", rfl, by decide, hmem⟩
    · rw [except_bind_error_iff] at h
      rcases h with h | ⟨months, -, h⟩
      · right
        obtain ⟨r, hr, h1, h2⟩ := monthsOfRows_eq_error h
        exact ⟨r, hr, h1, h2⟩
      · exact absurd h (by rw [except_pure_ne_error]; exact not_false)

/-- On a well-formed batch `aggregate_patterns` returns the full report. -/
theorem aggregate_fst_ok (df : DataFrame) (h : wellFormed df = true) :
    (aggregate_patterns df).1 = Except.ok (statsOf df) := by
  rw [aggregate_patterns, aggregate_core_ok df h]

/-- On a well-formed batch the frame the caller keeps is the mutated one. -/
theorem aggregate_snd_ok (df : DataFrame) (h : wellFormed df = true) :
    (aggregate_patterns df).2 = dfMut df := by
  rw [aggregate_patterns, aggregate_core_ok df h]

/-- `aggregate_patterns` succeeds exactly on well-formed batches. -/
theorem aggregate_isOk_iff (df : DataFrame) :
    (aggregate_patterns df).1.isOk = true ↔ wellFormed df = true := by
  constructor
  · intro h
    rw [aggregate_patterns] at h
    cases hc : aggregate_core df with
    | ok p => exact wellFormed_of_core_ok hc
    | error e =>
      rw [hc] at h
      exact absurd h (by simp [Except.isOk, Except.toBool])
  · intro h
    rw [aggregate_fst_ok df h]
    rfl

/-- Any raised error identifies a missing required column or a bad row. -/
theorem aggregate_error_imp {df : DataFrame} {e : AggErr}
    (h : (aggregate_patterns df).1 = Except.error e) :
    (∃ c, e = AggErr.keyError c ∧ c ∈ requiredCols ∧ c ∉ df.cols) ∨
    (∃ r, r ∈ df.rows ∧ pubMonthOf r = none ∧ e = AggErr.parseError (pubStr r)) := by
  rw [aggregate_patterns] at h
  cases hc : aggregate_core df with
  | ok p =>
    rw [hc] at h
    exact absurd h (by simp)
  | error e2 =>
    rw [hc] at h
    injection h with h
    subst h
    exact core_error_cases hc

/-- When aggregation raises, the raise happens before the `year_month`
assignment, so the caller's frame is untouched. -/
theorem aggregate_snd_of_error {df : DataFrame}
    (h : (aggregate_patterns df).1.isOk = false) :
    (aggregate_patterns df).2 = df := by
  rw [aggregate_patterns] at h ⊢
  cases hc : aggregate_core df with
  | ok p =>
    rw [hc] at h
    exact absurd h (by simp [Except.isOk, Except.toBool])
  | error e => rfl

/-! ### Frame-mutation lemmas for the `year_month` assignment -/

theorem filter_map_replace (r : Row) (c : String) (v : Value) :
    (r.map (fun p => if p.1 = c then (c, v) else p)).filter (fun p => p.1 != c) =
      r.filter (fun p => p.1 != c) := by
  induction r with
  | nil => rfl
  | cons p r ih =>
    by_cases hp : p.1 = c
    · rw [List.map_cons, if_pos hp, List.filter_cons, List.filter_cons, ih]
      rw [show ((c, v).1 != c) = false by simp]
      rw [show (p.1 != c) = false by simp [hp]]
      rfl
    · rw [List.map_cons, if_neg hp, List.filter_cons, List.filter_cons, ih]

theorem filter_setCell (r : Row) (c : String) (v : Value) :
    (setCell r c v).filter (fun p => p.1 != c) = r.filter (fun p => p.1 != c) := by
  rw [setCell]
  split
  · exact filter_map_replace r c v
  · rw [List.filter_append]
    have : ([(c, v)] : Row).filter (fun p => p.1 != c) = [] := by simp
    rw [this, List.append_nil]

theorem lookup_map_replace (r : Row) {c k : String} (v : Value) (h : k ≠ c) :
    (r.map (fun p => if p.1 = c then (c, v) else p)).lookup k = r.lookup k := by
  induction r with
  | nil => rfl
  | cons p r ih =>
    by_cases hp : p.1 = c
    · rw [List.map_cons, if_pos hp]
      simp only [List.lookup]
      rw [show (k == c) = false by simp [h]]
      rw [show (k == p.1) = false by simp [hp, h]]
      exact ih
    · rw [List.map_cons, if_neg hp]
      simp only [List.lookup]
      cases hk : k == p.1 with
      | true => rfl
      | false => exact ih

theorem lookup_append_single (r : Row) {c k : String} (v : Value) (h : k ≠ c) :
    (r ++ [(c, v)]).lookup k = r.lookup k := by
  induction r with
  | nil =>
    simp only [List.nil_append, List.lookup]
    rw [show (k == c) = false by simp [h]]
  | cons p r ih =>
    simp only [List.cons_append, List.lookup]
    cases hk : k == p.1 with
    | true => rfl
    | false => exact ih

theorem lookup_setCell (r : Row) {c k : String} (v : Value) (h : k ≠ c) :
    (setCell r c v).lookup k = r.lookup k := by
  rw [setCell]
  split
  · exact lookup_map_replace r v h
  · exact lookup_append_single r v h

theorem cellOf_setCell (r : Row) {c k : String} (v : Value) (h : k ≠ c) :
    cellOf (setCell r c v) k = cellOf r k := by
  rw [cellOf, cellOf, lookup_setCell r v h]

theorem zip_self_map {α β : Type} (g : α → β) :
    ∀ l : List α, l.zip (l.map g) = l.map (fun a => (a, g a))
  | [] => rfl
  | a :: l => by
    rw [List.map_cons, List.zip_cons_cons, zip_self_map g l, List.map_cons]

/-- The mutated frame's rows, with the zip resolved. -/
theorem dfMut_rows (df : DataFrame) :
    (dfMut df).rows =
      df.rows.map (fun r => setCell r "year_month" (Value.period ((pubMonthOf r).getD 0))) := by
  rw [dfMut, DataFrame.setCol]
  show (df.rows.zip ((df.rows.map (fun r => (pubMonthOf r).getD 0)).map Value.period)).map _ = _
  rw [List.map_map, zip_self_map, List.map_map]
  rfl

theorem dfMut_cols (df : DataFrame) (h : "year_month" ∉ df.cols) :
    (dfMut df).cols = df.cols ++ ["year_month"] := by
  rw [dfMut, DataFrame.setCol]
  show (if "year_month" ∈ df.cols then df.cols else df.cols ++ ["year_month"]) = _
  exact if_neg h

theorem eraseCol_dfMut (df : DataFrame) :
    eraseCol (dfMut df) "year_month" = eraseCol df "year_month" := by
  rw [eraseCol, eraseCol]
  have hcols : (dfMut df).cols.filter (fun x => x != "year_month") =
      df.cols.filter (fun x => x != "year_month") := by
    rw [dfMut, DataFrame.setCol]
    show (if "year_month" ∈ df.cols then df.cols else df.cols ++ ["year_month"]).filter _ = _
    split
    · rfl
    · rw [List.filter_append]
      have : (["year_month"] : List String).filter (fun x => x != "year_month") = [] := by simp
      rw [this, List.append_nil]
  have hrows : (dfMut df).rows.map (fun r => r.filter (fun p => p.1 != "year_month")) =
      df.rows.map (fun r => r.filter (fun p => p.1 != "year_month")) := by
    rw [dfMut_rows, List.map_map]
    exact List.map_congr_left (fun r _ => filter_setCell r "year_month" _)
  rw [hcols, hrows]

theorem mem_dfMut_cols (df : DataFrame) {c : String} (h : c ≠ "year_month") :
    c ∈ (dfMut df).cols ↔ c ∈ df.cols := by
  rw [dfMut, DataFrame.setCol]
  show c ∈ (if "year_month" ∈ df.cols then df.cols else df.cols ++ ["year_month"]) ↔ _
  split
  · exact Iff.rfl
  · rw [List.mem_append]
    simp [h]

/-- Reading any column other than `year_month` is unchanged by the
aggregation's column assignment. -/
theorem getCol_dfMut (df : DataFrame) {c : String} (h : c ≠ "year_month") :
    (dfMut df).getCol c = df.getCol c := by
  rw [DataFrame.getCol, DataFrame.getCol]
  by_cases hc : c ∈ df.cols
  · rw [if_pos hc, if_pos ((mem_dfMut_cols df h).mpr hc)]
    rw [dfMut_rows, List.map_map]
    have step : ∀ r ∈ df.rows,
        cellOf (setCell r "year_month" (Value.period ((pubMonthOf r).getD 0))) c =
          cellOf r c :=
      fun r _ => cellOf_setCell r _ h
    exact congrArg Except.ok (List.map_congr_left step)
  · rw [if_neg hc, if_neg (fun hx => hc ((mem_dfMut_cols df h).mp hx))]

/-! ### Concrete example batches -/

/-- The column layout `analyze_batch` produces. -/
def stdCols : List String :=
  ["title", "published"] ++ error_categories.map confCol ++ error_categories.map issuesCol

/-- Build one assessment row the way `process_paper` does: title, published,
then one confidence and one issues column per category, with
`vals = [(confidence, issues), ...]` in category order. -/
def mkRow (title pub : String) (vals : List (ℚ × ℚ)) : Row :=
  [("title", Value.str title), ("published", Value.str pub)] ++
  (error_categories.zip vals).map (fun p => (confCol p.1, Value.num p.2.1)) ++
  (error_categories.zip vals).map (fun p => (issuesCol p.1, Value.num p.2.2))

/-- A well-formed single-row batch. -/
def df1 : DataFrame :=
  ⟨stdCols, [mkRow "p1" "2024-01-10" [(80, 1), (70, 2), (60, 0), (90, 3), (75, 1)]]⟩

/-- A zero-row batch with the full column layout. -/
def dfEmpty : DataFrame := ⟨stdCols, []⟩

/-- A batch missing every category column. -/
def dfBad : DataFrame := ⟨["title"], []⟩

/-! ### Claim theorems -/

/-- C1 counterexample: the claim says an empty batch raises a
`MalformedBatchError`, but on a zero-row batch whose columns are all present
`aggregate_patterns` returns normally (with NaN statistics), raising
nothing. -/
theorem C1_counterexample :
    dfEmpty.rows = [] ∧ (aggregate_patterns dfEmpty).1.isOk = true :=
  ⟨rfl, (aggregate_isOk_iff dfEmpty).mpr (by decide)⟩

/-- C1 (amended): aggregation raises an error exactly when a required column
(a per-category confidence/issues column or `published`) is missing or some
`published` value is unparseable; an empty batch whose columns are present
is not an error.  Any raised error is the pandas `KeyError` naming the
missing required column or the parse error naming the offending row's
`published` text — the code defines no `MalformedBatchError` class.  On a
well-formed batch the full report is returned (no partial result). -/
theorem C1_aggregation_error_iff (df : DataFrame) :
    ((aggregate_patterns df).1.isOk = true ↔ wellFormed df = true) ∧
    (∀ e, (aggregate_patterns df).1 = Except.error e →
      (∃ c, e = AggErr.keyError c ∧ c ∈ requiredCols ∧ c ∉ df.cols) ∨
      (∃ r, r ∈ df.rows ∧ pubMonthOf r = none ∧ e = AggErr.parseError (pubStr r))) ∧
    (wellFormed df = true → (aggregate_patterns df).1 = Except.ok (statsOf df)) :=
  ⟨aggregate_isOk_iff df, fun _ he => aggregate_error_imp he, fun h => aggregate_fst_ok df h⟩

/-- C1 witness: a frame missing every category column raises the `KeyError`
of the first column read, and the theorem classifies it. -/
theorem C1_witness :
    ((aggregate_patterns dfBad).1 = Except.error (AggErr.keyError "Methodology_confidence")) ∧
    ((∃ c, AggErr.keyError "Methodology_confidence" = AggErr.keyError c ∧
        c ∈ requiredCols ∧ c ∉ dfBad.cols) ∨
     (∃ r, r ∈ dfBad.rows ∧ pubMonthOf r = none ∧
        AggErr.keyError "Methodology_confidence" = AggErr.parseError (pubStr r))) :=
  ⟨rfl, (C1_aggregation_error_iff dfBad).2.1 _ rfl⟩

/-- C2 counterexample: the claim says the batch is exactly what it was
before the call, but on a well-formed one-row batch the frame the caller
holds afterwards differs from the input (it gained a `year_month`
column). -/
theorem C2_counterexample :
    wellFormed df1 = true ∧ (aggregate_patterns df1).2 ≠ df1 := by
  refine ⟨by decide, ?_⟩
  rw [aggregate_snd_ok df1 (by decide)]
  decide

/-- C2 (amended): `aggregate_patterns` does mutate its input, but only by
the `results['year_month'] = ...` assignment: on a well-formed batch with no
prior `year_month` column the post-call frame is the input plus that one
column, dropping `year_month` on both sides restores equality, reading any
other column is unchanged, and on a raising call the frame is untouched. -/
theorem C2_mutation (df : DataFrame) (h : wellFormed df = true)
    (h2 : "year_month" ∉ df.cols) :
    ((aggregate_patterns df).2.cols = df.cols ++ ["year_month"]) ∧
    (eraseCol (aggregate_patterns df).2 "year_month" = eraseCol df "year_month") ∧
    (∀ c, c ≠ "year_month" → (aggregate_patterns df).2.getCol c = df.getCol c) ∧
    (∀ df2 : DataFrame, (aggregate_patterns df2).1.isOk = false →
      (aggregate_patterns df2).2 = df2) := by
  rw [aggregate_snd_ok df h]
  exact ⟨dfMut_cols df h2, eraseCol_dfMut df, fun c hc => getCol_dfMut df hc,
    fun df2 h4 => aggregate_snd_of_error h4⟩

/-- C2 witness: the mutation shape at the concrete one-row batch. -/
theorem C2_witness :
    wellFormed df1 = true ∧ "year_month" ∉ df1.cols ∧
    (aggregate_patterns df1).2.cols = df1.cols ++ ["year_month"] :=
  ⟨by decide, by decide, (C2_mutation df1 (by decide) (by decide)).1⟩

/-! ### Trend, severity and single-row statistics -/

/-- The trend label reads only the length and the two endpoint values. -/
theorem trend_ext {s t : List ℚ} (h1 : t.length = s.length)
    (h2 : t.headD 0 = s.headD 0) (h3 : t.getLastD 0 = s.getLastD 0) :
    _calculate_trend t = _calculate_trend s := by
  rw [_calculate_trend, _calculate_trend, h1, h2, h3]

/-- C3: `_calculate_trend` is the endpoint-slope heuristic: "stable" below
two points; otherwise with `slope = (s[last] - s[first]) / n` it returns
"stable" for `|slope| < 0.1`, "increasing" for positive slope of magnitude
at least `0.1`, "decreasing" otherwise; and the label depends only on the
length and the two endpoint values. -/
theorem C3_calculate_trend (s : List ℚ) :
    (s.length < 2 → _calculate_trend s = "stable") ∧
    (2 ≤ s.length →
      (|(s.getLastD 0 - s.headD 0) / (s.length : ℚ)| < 1 / 10 →
        _calculate_trend s = "stable") ∧
      ((s.getLastD 0 - s.headD 0) / (s.length : ℚ) > 0 ∧
          1 / 10 ≤ |(s.getLastD 0 - s.headD 0) / (s.length : ℚ)| →
        _calculate_trend s = "increasing") ∧
      ((s.getLastD 0 - s.headD 0) / (s.length : ℚ) ≤ 0 ∧
          1 / 10 ≤ |(s.getLastD 0 - s.headD 0) / (s.length : ℚ)| →
        _calculate_trend s = "decreasing")) ∧
    (∀ t : List ℚ, t.length = s.length → t.headD 0 = s.headD 0 →
      t.getLastD 0 = s.getLastD 0 → _calculate_trend t = _calculate_trend s) := by
  refine ⟨fun h => ?_, fun h => ⟨fun hs => ?_, fun hs => ?_, fun hs => ?_⟩,
    fun t h1 h2 h3 => trend_ext h1 h2 h3⟩
  · rw [_calculate_trend, if_pos h]
  · rw [_calculate_trend, if_neg (by omega)]
    exact if_pos hs
  · rw [_calculate_trend, if_neg (by omega)]
    rw [if_neg (not_lt.mpr hs.2), if_pos hs.1]
  · rw [_calculate_trend, if_neg (by omega)]
    rw [if_neg (not_lt.mpr hs.2), if_neg (not_lt.mpr hs.1)]

/-- C3 witness: the series `[0, 4]` has slope `2` and the theorem labels it
"increasing". -/
theorem C3_witness :
    2 ≤ ([0, 4] : List ℚ).length ∧ _calculate_trend [0, 4] = "increasing" :=
  ⟨by decide,
    ((C3_calculate_trend [0, 4]).2.1 (by decide)).2.1
      (by norm_num [abs_of_nonneg])⟩

/-- Every issue count lands in exactly one of the three severity buckets. -/
theorem sev_bucket_unique (q : ℚ) :
    (decide (q ≤ 1)).toNat + (decide (1 < q) && decide (q ≤ 3)).toNat +
      (decide (3 < q)).toNat = 1 := by
  rcases le_or_lt q 1 with h1 | h1
  · rw [decide_eq_true h1, decide_eq_false (not_lt.mpr h1),
      decide_eq_false (not_lt.mpr (le_trans h1 (by norm_num)))]
    rfl
  · rcases le_or_lt q 3 with h3 | h3
    · rw [decide_eq_false (not_le.mpr h1), decide_eq_true h1, decide_eq_true h3,
        decide_eq_false (not_lt.mpr h3)]
      rfl
    · rw [decide_eq_false (not_le.mpr h1), decide_eq_false (not_le.mpr h3),
        decide_eq_true h3, decide_eq_true h1]
      rfl

/-- The bucket indicators, in the form `countP` unfolds to. -/
theorem sev_bucket_ite (q : ℚ) :
    (if decide (q ≤ 1) = true then 1 else 0) +
      (if (decide (1 < q) && decide (q ≤ 3)) = true then 1 else 0) +
      (if decide (3 < q) = true then 1 else 0) = 1 := by
  rcases le_or_lt q 1 with h1 | h1
  · rw [decide_eq_true h1, decide_eq_false (not_lt.mpr h1),
      decide_eq_false (not_lt.mpr (le_trans h1 (by norm_num)))]
    rfl
  · rcases le_or_lt q 3 with h3 | h3
    · rw [decide_eq_false (not_le.mpr h1), decide_eq_true h1, decide_eq_true h3,
        decide_eq_false (not_lt.mpr h3)]
      rfl
    · rw [decide_eq_false (not_le.mpr h1), decide_eq_false (not_le.mpr h3),
        decide_eq_true h3, decide_eq_true h1]
      rfl

/-- The three bucket counts of any series sum to its length. -/
theorem sev_partition (l : List ℚ) :
    l.countP (fun q => decide (q ≤ 1)) +
      l.countP (fun q => decide (1 < q) && decide (q ≤ 3)) +
      l.countP (fun q => decide (3 < q)) = l.length := by
  induction l with
  | nil => rfl
  | cons q l ih =>
    rw [List.countP_cons, List.countP_cons, List.countP_cons, List.length_cons]
    have := sev_bucket_ite q
    omega

theorem statsOf_sev_lookup (df : DataFrame) {c : String} (hc : c ∈ error_categories) :
    (statsOf df).severity_distribution.lookup c = some (severityOf (issuesOf df c)) := by
  fin_cases hc <;> rfl

theorem statsOf_conf_lookup (df : DataFrame) {c : String} (hc : c ∈ error_categories) :
    (statsOf df).confidence_trends.lookup c = some (confTrendOf (confsOf df c)) := by
  fin_cases hc <;> rfl

theorem statsOf_corr_lookup (df : DataFrame) {c : String} (hc : c ∈ error_categories) :
    (statsOf df).error_correlations.lookup c = some (corrListOf df c) := by
  fin_cases hc <;> rfl

/-- C5: the severity distribution of every category counts `issues <= 1` as
low, `1 < issues <= 3` as medium and `issues > 3` as high; every row falls
in exactly one bucket and the counts sum to the number of rows; in
particular `1` is low, `2` and `3` are medium, and `4` is high. -/
theorem C5_severity (df : DataFrame) (h : wellFormed df = true) {c : String}
    (hc : c ∈ error_categories) :
    ∀ s, (aggregate_patterns df).1 = Except.ok s →
      ∀ d, s.severity_distribution.lookup c = some d →
        d.low = (issuesOf df c).countP (fun q => decide (q ≤ 1)) ∧
        d.medium = (issuesOf df c).countP (fun q => decide (1 < q) && decide (q ≤ 3)) ∧
        d.high = (issuesOf df c).countP (fun q => decide (3 < q)) ∧
        d.low + d.medium + d.high = df.rows.length ∧
        (∀ q : ℚ, (decide (q ≤ 1)).toNat + (decide (1 < q) && decide (q ≤ 3)).toNat +
          (decide (3 < q)).toNat = 1) ∧
        severityOf [1] = ⟨1, 0, 0⟩ ∧ severityOf [2] = ⟨0, 1, 0⟩ ∧
        severityOf [3] = ⟨0, 1, 0⟩ ∧ severityOf [4] = ⟨0, 0, 1⟩ := by
  intro s hs d hd
  rw [aggregate_fst_ok df h] at hs
  injection hs with hs
  subst hs
  rw [statsOf_sev_lookup df hc] at hd
  injection hd with hd
  subst hd
  refine ⟨rfl, rfl, rfl, ?_, sev_bucket_unique, ?_, ?_, ?_, ?_⟩
  · have hp := sev_partition (issuesOf df c)
    have hlen : (issuesOf df c).length = df.rows.length := List.length_map df.rows _
    exact hlen ▸ hp
  · decide
  · decide
  · decide
  · decide

/-- C5 witness: the three bucket counts of the one-row batch sum to its row
count. -/
theorem C5_witness :
    wellFormed df1 = true ∧
    (severityOf (issuesOf df1 "Methodology")).low +
      (severityOf (issuesOf df1 "Methodology")).medium +
      (severityOf (issuesOf df1 "Methodology")).high = df1.rows.length :=
  ⟨by decide,
    (C5_severity df1 (by decide) (by decide) (statsOf df1)
      (aggregate_fst_ok df1 (by decide)) (severityOf (issuesOf df1 "Methodology"))
      (statsOf_sev_lookup df1 (by decide))).2.2.2.1⟩

/-- C8: a single-row batch reports a `NaN` standard deviation (not zero) and
the trend label "stable" for every category. -/
theorem C8_single_row (df : DataFrame) (h : wellFormed df = true)
    (h1 : df.rows.length = 1) {c : String} (hc : c ∈ error_categories) :
    ∀ s, (aggregate_patterns df).1 = Except.ok s →
      ∀ ct, s.confidence_trends.lookup c = some ct →
        ct.std = none ∧ ct.trend = "stable" := by
  intro s hs ct hct
  rw [aggregate_fst_ok df h] at hs
  injection hs with hs
  subst hs
  rw [statsOf_conf_lookup df hc] at hct
  injection hct with hct
  subst hct
  have hlen : (confsOf df c).length = 1 := by rw [confsOf, List.length_map, h1]
  constructor
  · show listStd (confsOf df c) = none
    rw [listStd, sampleVar, if_pos (by rw [hlen]; norm_num)]
    rfl
  · show _calculate_trend (confsOf df c) = "stable"
    rw [_calculate_trend, if_pos (by rw [hlen]; norm_num)]

/-- C8 witness: the concrete one-row batch. -/
theorem C8_witness :
    wellFormed df1 = true ∧ df1.rows.length = 1 ∧
    (confTrendOf (confsOf df1 "Methodology")).std = none ∧
    (confTrendOf (confsOf df1 "Methodology")).trend = "stable" :=
  ⟨by decide, by decide,
    (C8_single_row df1 (by decide) (by decide) (by decide) (statsOf df1)
      (aggregate_fst_ok df1 (by decide)) (confTrendOf (confsOf df1 "Methodology"))
      (statsOf_conf_lookup df1 (by decide))).1,
    (C8_single_row df1 (by decide) (by decide) (by decide) (statsOf df1)
      (aggregate_fst_ok df1 (by decide)) (confTrendOf (confsOf df1 "Methodology"))
      (statsOf_conf_lookup df1 (by decide))).2⟩

/-- Well-formedness is preserved by any permutation of the rows (columns
unchanged). -/
theorem wellFormed_perm {df df' : DataFrame} (h : wellFormed df = true)
    (hcols : df'.cols = df.cols) (hperm : df'.rows.Perm df.rows) :
    wellFormed df' = true := by
  rw [wellFormed, Bool.and_eq_true]
  constructor
  · rw [List.all_eq_true]
    intro c hc
    rw [decide_eq_true_iff, hcols]
    exact wf_col h hc
  · rw [List.all_eq_true]
    intro r hr
    exact wf_parse h r (hperm.mem_iff.mp hr)

/-- The confidence series of a category, under a permutation fixing the
endpoints, keeps its length and endpoints. -/
theorem confsOf_ext {df df' : DataFrame} (hperm : df'.rows.Perm df.rows)
    (hh : df'.rows.head? = df.rows.head?) (hl : df'.rows.getLast? = df.rows.getLast?)
    (c : String) :
    _calculate_trend (confsOf df' c) = _calculate_trend (confsOf df c) := by
  apply trend_ext
  · rw [confsOf, confsOf, List.length_map, List.length_map]
    exact hperm.length_eq
  · rw [confsOf, confsOf, List.headD_eq_head?, List.headD_eq_head?,
      List.head?_map, List.head?_map, hh]
  · rw [confsOf, confsOf, List.getLastD_eq_getLast?, List.getLastD_eq_getLast?,
      List.getLast?_map, List.getLast?_map, hl]

/-- A two-row batch whose first row is the chronologically later one. -/
def rowLate : Row := mkRow "a" "2024-02-05" [(100, 0), (50, 0), (50, 0), (50, 0), (50, 0)]

/-- A two-row batch's chronologically earlier row. -/
def rowEarly : Row := mkRow "b" "2024-01-05" [(0, 0), (50, 0), (50, 0), (50, 0), (50, 0)]

/-- Appearance order: later paper first. -/
def dfOrd : DataFrame := ⟨stdCols, [rowLate, rowEarly]⟩

/-- The same two rows in timestamp order. -/
def dfOrdS : DataFrame := ⟨stdCols, [rowEarly, rowLate]⟩

/-- C7: the per-category confidence trend label is invariant under any
permutation of the rows that keeps the first and last rows in place; and the
series is read in row-appearance order, not timestamp order: the same two
rows in the two orders (one of them chronological) give different labels. -/
theorem C7_trend_order (df df' : DataFrame) (h : wellFormed df = true)
    (hcols : df'.cols = df.cols) (hperm : df'.rows.Perm df.rows)
    (hh : df'.rows.head? = df.rows.head?) (hl : df'.rows.getLast? = df.rows.getLast?) :
    (∀ c ∈ error_categories, ∀ s s',
      (aggregate_patterns df).1 = Except.ok s →
      (aggregate_patterns df').1 = Except.ok s' →
      ∀ t t', s.confidence_trends.lookup c = some t →
        s'.confidence_trends.lookup c = some t' → t'.trend = t.trend) ∧
    (dfOrd.rows.Perm dfOrdS.rows ∧
      (pubMonthOf rowEarly).getD 0 < (pubMonthOf rowLate).getD 0 ∧
      dfOrd.rows.head? = some rowLate ∧
      (confTrendOf (confsOf dfOrd "Methodology")).trend = "decreasing" ∧
      (confTrendOf (confsOf dfOrdS "Methodology")).trend = "increasing") := by
  constructor
  · intro c hc s s' hs hs' t t' ht ht'
    rw [aggregate_fst_ok df h] at hs
    rw [aggregate_fst_ok df' (wellFormed_perm h hcols hperm)] at hs'
    injection hs with hs
    injection hs' with hs'
    subst hs
    subst hs'
    rw [statsOf_conf_lookup df hc] at ht
    rw [statsOf_conf_lookup df' hc] at ht'
    injection ht with ht
    injection ht' with ht'
    subst ht
    subst ht'
    show _calculate_trend (confsOf df' c) = _calculate_trend (confsOf df c)
    exact confsOf_ext hperm hh hl c
  · refine ⟨List.Perm.swap rowEarly rowLate [], by decide, rfl, ?_, ?_⟩
    · rw [show confsOf dfOrd "Methodology" = [100, 0] from rfl]
      norm_num [confTrendOf, _calculate_trend, abs_of_nonneg, abs_of_nonpos]
    · rw [show confsOf dfOrdS "Methodology" = [0, 100] from rfl]
      norm_num [confTrendOf, _calculate_trend, abs_of_nonneg, abs_of_nonpos]

/-- C7 witness: a four-row batch and its middle-swapped permutation carry
the same label. -/
def df4 : DataFrame :=
  ⟨stdCols,
   [mkRow "p1" "2024-01-10" [(10, 0), (10, 0), (10, 0), (10, 0), (10, 0)],
    mkRow "p2" "2024-02-10" [(20, 1), (20, 1), (20, 1), (20, 1), (20, 1)],
    mkRow "p3" "2024-03-10" [(30, 2), (30, 2), (30, 2), (30, 2), (30, 2)],
    mkRow "p4" "2024-04-10" [(90, 3), (90, 3), (90, 3), (90, 3), (90, 3)]]⟩

/-- `df4` with its two middle rows swapped. -/
def df4s : DataFrame :=
  ⟨stdCols,
   [mkRow "p1" "2024-01-10" [(10, 0), (10, 0), (10, 0), (10, 0), (10, 0)],
    mkRow "p3" "2024-03-10" [(30, 2), (30, 2), (30, 2), (30, 2), (30, 2)],
    mkRow "p2" "2024-02-10" [(20, 1), (20, 1), (20, 1), (20, 1), (20, 1)],
    mkRow "p4" "2024-04-10" [(90, 3), (90, 3), (90, 3), (90, 3), (90, 3)]]⟩

theorem C7_witness :
    (wellFormed df4 = true ∧ df4s.cols = df4.cols ∧ df4s.rows.Perm df4.rows ∧
      df4s.rows.head? = df4.rows.head? ∧ df4s.rows.getLast? = df4.rows.getLast?) ∧
    ((confTrendOf (confsOf df4s "Methodology")).trend =
      (confTrendOf (confsOf df4 "Methodology")).trend) :=
  ⟨⟨by decide, rfl, List.Perm.cons _ (List.Perm.append_right _ (List.Perm.swap _ _ [])),
    rfl, rfl⟩,
   (C7_trend_order df4 df4s (by decide) rfl
      (List.Perm.cons _ (List.Perm.append_right _ (List.Perm.swap _ _ []))) rfl rfl).1
     "Methodology" (by decide) (statsOf df4) (statsOf df4s)
     (aggregate_fst_ok df4 (by decide))
     (aggregate_fst_ok df4s (by decide))
     (confTrendOf (confsOf df4 "Methodology")) (confTrendOf (confsOf df4s "Methodology"))
     (statsOf_conf_lookup df4 (by decide)) (statsOf_conf_lookup df4s (by decide))⟩

/-! ### Temporal summary -/

/-- The retained periods of a batch: the distinct months present, ascending,
restricted to the most recent six. -/
theorem tail6_length {α : Type} (l : List α) : (tail6 l).length = min 6 l.length := by
  rw [tail6, List.length_drop]
  omega

/-- The sorted distinct month list underlying the grouped frame. -/
theorem sortedDedup_sorted (ms : List ℕ) :
    List.Sorted (fun a b => a ≤ b) (ms.dedup.mergeSort (fun a b => a ≤ b)) := by
  have hp := @List.sorted_mergeSort ℕ (fun a b : ℕ => decide (a ≤ b))
    (fun a b c hab hbc =>
      decide_eq_true (le_trans (of_decide_eq_true hab) (of_decide_eq_true hbc)))
    (fun a b => by
      show (decide (a ≤ b) || decide (b ≤ a)) = true
      rcases le_total a b with hab | hab
      · rw [decide_eq_true hab]
        rfl
      · rw [decide_eq_true hab, Bool.or_true])
    ms.dedup
  exact hp.imp (fun hab => of_decide_eq_true hab)

theorem sortedDedup_nodup (ms : List ℕ) :
    (ms.dedup.mergeSort (fun a b => a ≤ b)).Nodup :=
  (List.mergeSort_perm ms.dedup _).symm.nodup (List.nodup_dedup ms)

theorem retainedOf_sorted (ms : List ℕ) : List.Sorted (fun a b => a < b) (retainedOf ms) := by
  have hlt : List.Sorted (fun a b => a < b) (ms.dedup.mergeSort (fun a b => a ≤ b)) :=
    (sortedDedup_sorted ms).lt_of_le (sortedDedup_nodup ms)
  exact hlt.sublist (List.drop_sublist _ _)

theorem retainedOf_mem {ms : List ℕ} {m : ℕ} (h : m ∈ retainedOf ms) : m ∈ ms := by
  rw [retainedOf, tail6] at h
  have h2 := (List.drop_sublist _ _).mem h
  have h3 := ((List.mergeSort_perm ms.dedup _).mem_iff).mp h2
  exact List.mem_dedup.mp h3

theorem retainedOf_length (ms : List ℕ) : (retainedOf ms).length = min 6 ms.dedup.length := by
  rw [retainedOf, tail6_length, List.length_mergeSort]

/-- Permutations of the underlying values have the same retained periods. -/
theorem retainedOf_perm {ms ms' : List ℕ} (h : ms'.Perm ms) :
    retainedOf ms' = retainedOf ms := by
  rw [retainedOf, retainedOf]
  have : ms'.dedup.mergeSort (fun a b => a ≤ b) = ms.dedup.mergeSort (fun a b => a ≤ b) := by
    apply List.eq_of_perm_of_sorted (r := fun a b : ℕ => a ≤ b)
    · exact ((List.mergeSort_perm ms'.dedup _).trans h.dedup).trans
        (List.mergeSort_perm ms.dedup _).symm
    · exact sortedDedup_sorted ms'
    · exact sortedDedup_sorted ms
  rw [this]

theorem statsOf_monthly_lookup (df : DataFrame) {c : String} (hc : c ∈ error_categories) :
    (statsOf df).temporal_patterns.monthly_averages.lookup c =
      some ((retainedOf (monthsValOf df)).map
        (fun m => monthStatOf (df.rows.zip (monthsValOf df)) m c)) := by
  fin_cases hc <;> rfl

/-- C6: the temporal summary buckets rows by the calendar month of the
`published` timestamp and keeps exactly the most recent
`min(6, number of distinct months)` periods, sorted chronologically,
independent of the input row order; every retained month occurs in the
data (none are fabricated). -/
theorem C6_temporal (df : DataFrame) (h : wellFormed df = true) {c : String}
    (hc : c ∈ error_categories) :
    ∀ s, (aggregate_patterns df).1 = Except.ok s →
      ∀ l, s.temporal_patterns.monthly_averages.lookup c = some l →
        (l.map (fun ms => ms.month) = retainedOf (monthsValOf df)) ∧
        ((retainedOf (monthsValOf df)).length = min 6 (monthsValOf df).dedup.length) ∧
        List.Sorted (fun a b => a < b) (retainedOf (monthsValOf df)) ∧
        (∀ m ∈ retainedOf (monthsValOf df), ∃ r ∈ df.rows, pubMonthOf r = some m) ∧
        (∀ df' : DataFrame, df'.rows.Perm df.rows →
          retainedOf (monthsValOf df') = retainedOf (monthsValOf df)) := by
  intro s hs l hl
  rw [aggregate_fst_ok df h] at hs
  injection hs with hs
  subst hs
  rw [statsOf_monthly_lookup df hc] at hl
  injection hl with hl
  subst hl
  refine ⟨?_, retainedOf_length _, retainedOf_sorted _, ?_, ?_⟩
  · rw [List.map_map]
    exact List.map_id _
  · intro m hm
    have h1 : m ∈ monthsValOf df := retainedOf_mem hm
    rw [monthsValOf] at h1
    obtain ⟨r, hr, hrm⟩ := List.mem_map.mp h1
    refine ⟨r, hr, ?_⟩
    cases ho : pubMonthOf r with
    | none =>
      have := wf_parse h r hr
      rw [ho] at this
      exact absurd this (by simp)
    | some v =>
      rw [ho] at hrm
      rw [← hrm]
      rfl
  · intro df' hp
    exact retainedOf_perm (List.Perm.map _ hp)

/-- An eight-month batch (one row per month). -/
def dfC6 : DataFrame :=
  ⟨stdCols,
   [mkRow "m1" "2024-01-05" [(50, 1), (50, 1), (50, 1), (50, 1), (50, 1)],
    mkRow "m2" "2024-02-05" [(50, 1), (50, 1), (50, 1), (50, 1), (50, 1)],
    mkRow "m3" "2024-03-05" [(50, 1), (50, 1), (50, 1), (50, 1), (50, 1)],
    mkRow "m4" "2024-04-05" [(50, 1), (50, 1), (50, 1), (50, 1), (50, 1)],
    mkRow "m5" "2024-05-05" [(50, 1), (50, 1), (50, 1), (50, 1), (50, 1)],
    mkRow "m6" "2024-06-05" [(50, 1), (50, 1), (50, 1), (50, 1), (50, 1)],
    mkRow "m7" "2024-07-05" [(50, 1), (50, 1), (50, 1), (50, 1), (50, 1)],
    mkRow "m8" "2024-08-05" [(50, 1), (50, 1), (50, 1), (50, 1), (50, 1)]]⟩

/-- C6 witness: the eight-month batch retains exactly the latest six
periods. -/
theorem C6_witness :
    (wellFormed dfC6 = true ∧ (monthsValOf dfC6).dedup.length = 8) ∧
    ((retainedOf (monthsValOf dfC6)).length = min 6 (monthsValOf dfC6).dedup.length ∧
     (retainedOf (monthsValOf dfC6)).length = 6) :=
  ⟨⟨by decide, by decide⟩,
   ⟨(C6_temporal dfC6 (by decide) (c := "Methodology") (by decide) (statsOf dfC6)
       (aggregate_fst_ok dfC6 (by decide)) _
       (statsOf_monthly_lookup dfC6 (c := "Methodology") (by decide))).2.1,
    by
      rw [retainedOf_length, show (monthsValOf dfC6).dedup.length = 8 from by decide]
      norm_num⟩⟩

/-! ### Correlation sets -/

/-- Membership in one loop entry of the correlation set. -/
theorem corrEntry_mem {other : String} {xs ys : List ℚ} {k : String} {v : ℝ} :
    (k, v) ∈ corrEntry other xs ys ↔
      k = other ∧ ∃ r, pearson xs ys = some r ∧ |r| > 3 / 10 ∧ v = roundTo2 r := by
  rw [corrEntry]
  cases hp : pearson xs ys with
  | none => simp
  | some r =>
    show ((k, v) ∈ if |r| > 3 / 10 then [(other, roundTo2 r)] else []) ↔ _
    by_cases hr : |r| > 3 / 10
    · rw [if_pos hr]
      simp only [List.mem_singleton, Prod.mk.injEq, Option.some.injEq]
      constructor
      · rintro ⟨rfl, rfl⟩
        exact ⟨rfl, r, rfl, hr, rfl⟩
      · rintro ⟨rfl, r2, rfl, -, rfl⟩
        exact ⟨rfl, rfl⟩
    · rw [if_neg hr]
      constructor
      · intro hmem
        exact absurd hmem (List.not_mem_nil _)
      · rintro ⟨-, r2, hr2, h2, -⟩
        injection hr2 with hr2
        exact absurd (by rw [hr2]; exact h2) hr

/-- Membership in a category's correlation set resolves to the entry of the
matching other category. -/
theorem mem_corrListOf {df : DataFrame} {a k : String} {v : ℝ} :
    (k, v) ∈ corrListOf df a ↔
      ∃ o ∈ error_categories, o ≠ a ∧
        (k, v) ∈ corrEntry o (issuesOf df a) (issuesOf df o) := by
  rw [corrListOf, List.mem_flatten]
  constructor
  · rintro ⟨lst, hlst, hmem⟩
    obtain ⟨o, ho, rfl⟩ := List.mem_map.mp hlst
    by_cases hoa : o = a
    · rw [if_pos hoa] at hmem
      exact absurd hmem (List.not_mem_nil _)
    · rw [if_neg hoa] at hmem
      exact ⟨o, ho, hoa, hmem⟩
  · rintro ⟨o, ho, hoa, hmem⟩
    refine ⟨corrEntry o (issuesOf df a) (issuesOf df o), ?_, hmem⟩
    rw [List.mem_map]
    exact ⟨o, ho, if_neg hoa⟩

/-- C4: for distinct categories `a`, `b`, `b` appears in `a`'s correlation
set exactly when the Pearson correlation of their issues columns is defined
with `|r| > 0.3`, the stored value then being `r` rounded to two decimals;
an undefined (zero-variance) correlation excludes the pair and is never an
error — the call still succeeds. -/
theorem C4_correlations (df : DataFrame) (h : wellFormed df = true)
    {a b : String} (ha : a ∈ error_categories) (hb : b ∈ error_categories)
    (hab : a ≠ b) :
    ∀ s, (aggregate_patterns df).1 = Except.ok s →
      ∀ l, s.error_correlations.lookup a = some l →
        (∀ v, (b, v) ∈ l ↔
          ∃ r, pearson (issuesOf df a) (issuesOf df b) = some r ∧
            |r| > 3 / 10 ∧ v = roundTo2 r) ∧
        (pearson (issuesOf df a) (issuesOf df b) = none → ∀ v, (b, v) ∉ l) ∧
        (aggregate_patterns df).1.isOk = true := by
  intro s hs l hl
  rw [aggregate_fst_ok df h] at hs
  injection hs with hs
  subst hs
  rw [statsOf_corr_lookup df ha] at hl
  injection hl with hl
  subst hl
  have key : ∀ v : ℝ, (b, v) ∈ corrListOf df a ↔
      ∃ r, pearson (issuesOf df a) (issuesOf df b) = some r ∧
        |r| > 3 / 10 ∧ v = roundTo2 r := by
    intro v
    rw [mem_corrListOf]
    constructor
    · rintro ⟨o, -, -, hmem⟩
      obtain ⟨rfl, hr⟩ := corrEntry_mem.mp hmem
      exact hr
    · intro hr
      exact ⟨b, hb, fun hba => hab hba.symm, corrEntry_mem.mpr ⟨rfl, hr⟩⟩
  refine ⟨key, ?_, ?_⟩
  · intro hnone v hv
    obtain ⟨r, hr, -, -⟩ := (key v).mp hv
    rw [hnone] at hr
    exact absurd hr (by simp)
  · rw [aggregate_fst_ok df h]
    rfl

/-- The spec's correlation example: Methodology issues `[0,1,2,3,4]`,
Statistical Analysis issues `[0,2,4,6,8]` (perfectly correlated), all other
issue columns constant (undefined correlation). -/
def dfEx : DataFrame :=
  ⟨stdCols,
   [mkRow "e1" "2024-01-05" [(50, 0), (50, 0), (50, 0), (50, 0), (50, 0)],
    mkRow "e2" "2024-01-06" [(50, 1), (50, 2), (50, 0), (50, 0), (50, 0)],
    mkRow "e3" "2024-01-07" [(50, 2), (50, 4), (50, 0), (50, 0), (50, 0)],
    mkRow "e4" "2024-01-08" [(50, 3), (50, 6), (50, 0), (50, 0), (50, 0)],
    mkRow "e5" "2024-01-09" [(50, 4), (50, 8), (50, 0), (50, 0), (50, 0)]]⟩

/-- C4 witness: on the spec's example the correlation is exactly `1` and the
pair appears in the correlation set with value `1`. -/
theorem C4_witness :
    (wellFormed dfEx = true ∧ ("Methodology" : String) ≠ "Statistical Analysis") ∧
    pearson (issuesOf dfEx "Methodology") (issuesOf dfEx "Statistical Analysis") = some 1 ∧
    roundTo2 1 = 1 ∧
    ("Statistical Analysis", (1 : ℝ)) ∈ corrListOf dfEx "Methodology" := by
  have e1 : issuesOf dfEx "Methodology" = [0, 1, 2, 3, 4] := rfl
  have e2 : issuesOf dfEx "Statistical Analysis" = [0, 2, 4, 6, 8] := rfl
  have cxx : crossSum ([0, 1, 2, 3, 4] : List ℚ) [0, 1, 2, 3, 4] = 10 := by
    norm_num [crossSum, demean]
  have cyy : crossSum ([0, 2, 4, 6, 8] : List ℚ) [0, 2, 4, 6, 8] = 40 := by
    norm_num [crossSum, demean]
  have cxy : crossSum ([0, 1, 2, 3, 4] : List ℚ) [0, 2, 4, 6, 8] = 20 := by
    norm_num [crossSum, demean]
  have hp : pearson (issuesOf dfEx "Methodology")
      (issuesOf dfEx "Statistical Analysis") = some 1 := by
    rw [e1, e2, pearson, if_neg (by rw [cxx, cyy]; norm_num), cxx, cyy, cxy]
    congr 1
    rw [show ((10 : ℚ) : ℝ) * ((40 : ℚ) : ℝ) = 20 ^ 2 by push_cast; norm_num,
      Real.sqrt_sq (by norm_num)]
    push_cast
    norm_num
  have hround : roundTo2 1 = 1 := by
    rw [roundTo2, show (100 : ℝ) * 1 = ((100 : ℤ) : ℝ) by norm_num, round_intCast]
    norm_num
  refine ⟨⟨by decide, by decide⟩, hp, hround, ?_⟩
  exact ((C4_correlations dfEx (by decide)
      (a := "Methodology") (b := "Statistical Analysis") (by decide) (by decide) (by decide)
      (statsOf dfEx) (aggregate_fst_ok dfEx (by decide)) (corrListOf dfEx "Methodology")
      (statsOf_corr_lookup dfEx (by decide))).1 1).mpr ⟨1, hp, by norm_num, hround.symm⟩

/-! ### The per-paper assessment: `analyze_paper` and its parsing/fallback -/

/-- A JSON value as `json.loads` yields it. -/
inductive Json where
  | num (q : ℚ)
  | str (s : String)
  | bool (b : Bool)
  | null
  | arr (xs : List Json)
  | obj (fields : List (String × Json))

/-- The Python exceptions live in the parse path: `KeyError` is caught by
`_parse_analysis_response`, `TypeError` propagates to `analyze_paper`'s
catch-all. -/
inductive PyErr where
  | typeError
  | keyError
deriving DecidableEq

/-- One category's normalized score: `{confidence, issues}`. -/
structure CatScore where
  confidence : ℚ
  issues : ℚ
deriving DecidableEq, Repr

/-- Character-list match at the head (used for the substring check of the
Python `in` operator on strings). -/
def chStarts : List Char → List Char → Bool
  | [], _ => true
  | _ :: _, [] => false
  | c :: cs, d :: ds => (c = d) && chStarts cs ds

/-- Substring containment on character lists. -/
def chContains (hay needle : List Char) : Bool :=
  match hay with
  | [] => chStarts needle []
  | _ :: rest => chStarts needle hay || chContains rest needle

/-- Python `k in j`: dict key membership, list element equality, string
substring; `TypeError` on numbers, booleans and `None`. -/
def jsonContains (j : Json) (k : String) : Except PyErr Bool :=
  match j with
  | Json.obj fields => Except.ok (fields.lookup k).isSome
  | Json.arr xs =>
    Except.ok (xs.any (fun x => match x with | Json.str s => s = k | _ => false))
  | Json.str s => Except.ok (chContains s.toList k.toList)
  | _ => Except.error PyErr.typeError

/-- Python `j[k]` with a string key: dict lookup (`KeyError` when absent),
`TypeError` on any non-dict value. -/
def getItem (j : Json) (k : String) : Except PyErr Json :=
  match j with
  | Json.obj fields =>
    match fields.lookup k with
    | some v => Except.ok v
    | none => Except.error PyErr.keyError
  | _ => Except.error PyErr.typeError

/-- Numeric coercion used by `min`/`max` comparisons: numbers and booleans
(Python `bool` is an `int`) pass, anything else raises `TypeError`. -/
def asNum (j : Json) : Except PyErr ℚ :=
  match j with
  | Json.num q => Except.ok q
  | Json.bool b => Except.ok (if b then 1 else 0)
  | _ => Except.error PyErr.typeError

/-- `random.randint(lo, hi)` with the draw `x` supplied by the environment:
always in `[lo, hi]`. -/
def randint (lo hi x : ℕ) : ℕ := lo + x % (hi - lo + 1)

/-- `PaperAnalyzer._generate_fallback_analysis`: per category a random
confidence in `[60, 100]` and a random issue count in `[0, 3]`; `g` supplies
the random draws (two per category, in order). -/
def _generate_fallback_analysis (g : ℕ → ℕ) : List (String × CatScore) :=
  error_categories.enum.map (fun p =>
    (p.2, ⟨(randint 60 100 (g (2 * p.1)) : ℚ), (randint 0 3 (g (2 * p.1 + 1)) : ℚ)⟩))

/-- `category.lower().replace(' ', '_')`. -/
def categoryKey (c : String) : String :=
  String.mk (c.toList.map (fun ch => if ch = ' ' then '_' else ch.toLower))

/-- One iteration of the normalization loop of `_parse_analysis_response`:
clamp the reported confidence to `[0, 100]` and the issue count to `[0, ∞)`
when the category key is present, otherwise take this category's entry of a
fresh fallback analysis (`g` at offset `100` supplies those draws). -/
def normalizeCat (analysis : Json) (g : ℕ → ℕ) (i : ℕ) (category : String) :
    Except PyErr CatScore := do
  let hasKey ← jsonContains analysis (categoryKey category)
  if hasKey then do
    let entry ← getItem analysis (categoryKey category)
    let confJ ← getItem entry "confidence"
    let confN ← asNum confJ
    let issJ ← getItem entry "issues"
    let issN ← asNum issJ
    pure ⟨min 100 (max 0 confN), max 0 issN⟩
  else
    pure ⟨(randint 60 100 (g (100 + 2 * i)) : ℚ), (randint 0 3 (g (100 + 2 * i + 1)) : ℚ)⟩

/-- `PaperAnalyzer._parse_analysis_response`: `none` models a
`json.JSONDecodeError` from `json.loads` (caught, full fallback);
a raised `KeyError` in the loop is caught and also yields a full fallback;
a `TypeError` propagates to the caller. -/
def _parse_analysis_response (parsed : Option Json) (g : ℕ → ℕ) :
    Except PyErr (List (String × CatScore)) :=
  match parsed with
  | none => Except.ok (_generate_fallback_analysis g)
  | some analysis =>
    match error_categories.enum.mapM
        (fun p => do
          let sc ← normalizeCat analysis g p.1 p.2
          pure (p.2, sc)) with
    | Except.ok m => Except.ok m
    | Except.error PyErr.keyError =>
      Except.ok (_generate_fallback_analysis (fun n => g (200 + n)))
    | Except.error PyErr.typeError => Except.error PyErr.typeError

/-- The observable outcome of the API interaction in `analyze_paper`:
`failure` covers every exception path (exhausted retries, missing
`choices`, transport errors); `response c` is a received message body,
already passed through `json.loads` (`none` = undecodable). -/
inductive ApiOutcome where
  | failure
  | response (content : Option Json)

/-- `PaperAnalyzer.analyze_paper`: parse the API response, and on any
exception whatsoever return a fallback analysis (the outer
`except Exception` at the end of the method). -/
def analyze_paper (outcome : ApiOutcome) (g : ℕ → ℕ) : List (String × CatScore) :=
  match outcome with
  | ApiOutcome.failure => _generate_fallback_analysis (fun n => g (300 + n))
  | ApiOutcome.response content =>
    match _parse_analysis_response content g with
    | Except.ok m => m
    | Except.error _ => _generate_fallback_analysis (fun n => g (400 + n))

theorem randint_bounds (lo hi x : ℕ) (h : lo ≤ hi) :
    lo ≤ randint lo hi x ∧ randint lo hi x ≤ hi := by
  rw [randint]
  have hm : x % (hi - lo + 1) < hi - lo + 1 := Nat.mod_lt _ (by omega)
  omega

/-- The fallback analysis is keyed exactly by the category list. -/
theorem fallback_keys (g : ℕ → ℕ) :
    (_generate_fallback_analysis g).map Prod.fst = error_categories := by
  rw [_generate_fallback_analysis, List.map_map]
  show error_categories.enum.map (fun p => p.2) = error_categories
  exact List.enum_map_snd error_categories

/-- Every fallback entry has confidence in `[60, 100]` and issues in
`[0, 3]`. -/
theorem fallback_bounds (g : ℕ → ℕ) :
    ∀ p ∈ _generate_fallback_analysis g,
      60 ≤ p.2.confidence ∧ p.2.confidence ≤ 100 ∧
      0 ≤ p.2.issues ∧ p.2.issues ≤ 3 := by
  intro p hp
  rw [_generate_fallback_analysis] at hp
  obtain ⟨q, -, rfl⟩ := List.mem_map.mp hp
  have h1 := randint_bounds 60 100 (g (2 * q.1)) (by norm_num)
  have h2 := randint_bounds 0 3 (g (2 * q.1 + 1)) (by norm_num)
  dsimp only
  refine ⟨?_, ?_, ?_, ?_⟩
  · exact_mod_cast h1.1
  · exact_mod_cast h1.2
  · exact_mod_cast h2.1
  · exact_mod_cast h2.2

/-- Any score the normalization loop returns is clamped or a fallback
value: confidence in `[0, 100]`, issues non-negative. -/
theorem normalizeCat_bounds {analysis : Json} {g : ℕ → ℕ} {i : ℕ} {c : String}
    {sc : CatScore} (h : normalizeCat analysis g i c = Except.ok sc) :
    0 ≤ sc.confidence ∧ sc.confidence ≤ 100 ∧ 0 ≤ sc.issues := by
  rw [normalizeCat] at h
  obtain ⟨hasKey, -, h⟩ := except_bind_ok_iff.mp h
  cases hasKey with
  | true =>
    rw [if_pos rfl] at h
    obtain ⟨entry, -, h⟩ := except_bind_ok_iff.mp h
    obtain ⟨confJ, -, h⟩ := except_bind_ok_iff.mp h
    obtain ⟨confN, -, h⟩ := except_bind_ok_iff.mp h
    obtain ⟨issJ, -, h⟩ := except_bind_ok_iff.mp h
    obtain ⟨issN, -, h⟩ := except_bind_ok_iff.mp h
    rw [except_pure_ok_iff] at h
    subst h
    refine ⟨le_min (by norm_num) (le_max_left 0 confN), min_le_left _ _,
      le_max_left 0 issN⟩
  | false =>
    rw [if_neg (by simp)] at h
    rw [except_pure_ok_iff] at h
    subst h
    have h1 := randint_bounds 60 100 (g (100 + 2 * i)) (by norm_num)
    have h2 := randint_bounds 0 3 (g (100 + 2 * i + 1)) (by norm_num)
    dsimp only
    refine ⟨?_, ?_, ?_⟩
    · have : (60 : ℚ) ≤ (randint 60 100 (g (100 + 2 * i)) : ℚ) := by exact_mod_cast h1.1
      linarith
    · exact_mod_cast h1.2
    · exact_mod_cast h2.1

theorem mapM_pair_keys {β : Type} {f : ℕ × String → Except PyErr (String × β)}
    (hf : ∀ p s, f p = Except.ok s → s.1 = p.2) :
    ∀ {l : List (ℕ × String)} {m}, l.mapM f = Except.ok m →
      m.map Prod.fst = l.map Prod.snd := by
  intro l
  induction l with
  | nil =>
    intro m h
    rw [List.mapM_nil, except_pure_ok_iff] at h
    subst h
    rfl
  | cons x l ih =>
    intro m h
    rw [List.mapM_cons] at h
    obtain ⟨b, hb, h⟩ := except_bind_ok_iff.mp h
    obtain ⟨bs, hbs, h⟩ := except_bind_ok_iff.mp h
    rw [except_pure_ok_iff] at h
    subst h
    rw [List.map_cons, List.map_cons, ih hbs, hf x b hb]

theorem mapM_ok_mem {ε α β : Type} {f : α → Except ε β} :
    ∀ {l : List α} {m}, l.mapM f = Except.ok m → ∀ b ∈ m, ∃ a ∈ l, f a = Except.ok b := by
  intro l
  induction l with
  | nil =>
    intro m h b hb
    rw [List.mapM_nil, except_pure_ok_iff] at h
    subst h
    exact absurd hb (List.not_mem_nil b)
  | cons x l ih =>
    intro m h b hb
    rw [List.mapM_cons] at h
    obtain ⟨y, hy, h⟩ := except_bind_ok_iff.mp h
    obtain ⟨ys, hys, h⟩ := except_bind_ok_iff.mp h
    rw [except_pure_ok_iff] at h
    subst h
    rcases List.mem_cons.mp hb with rfl | hb
    · exact ⟨x, List.mem_cons_self x l, hy⟩
    · obtain ⟨a, ha, hfa⟩ := ih hys b hb
      exact ⟨a, List.mem_cons_of_mem x ha, hfa⟩

/-- The parse step, when it returns, returns a complete in-range mapping. -/
theorem parse_complete {parsed : Option Json} {g : ℕ → ℕ} {m : List (String × CatScore)}
    (h : _parse_analysis_response parsed g = Except.ok m) :
    m.map Prod.fst = error_categories ∧
    ∀ p ∈ m, 0 ≤ p.2.confidence ∧ p.2.confidence ≤ 100 ∧ 0 ≤ p.2.issues := by
  cases parsed with
  | none =>
    have h2 : Except.ok (_generate_fallback_analysis g) =
        (Except.ok m : Except PyErr _) := h
    injection h2 with h2
    subst h2
    refine ⟨fallback_keys g, fun p hp => ?_⟩
    obtain ⟨h1, h2, h3, -⟩ := fallback_bounds g p hp
    exact ⟨by linarith, h2, h3⟩
  | some analysis =>
    cases hm : error_categories.enum.mapM
        (fun p => do
          let sc ← normalizeCat analysis g p.1 p.2
          pure (p.2, sc)) with
    | ok m2 =>
      have h2 : (match error_categories.enum.mapM
          (fun p => do
            let sc ← normalizeCat analysis g p.1 p.2
            pure (p.2, sc)) with
        | Except.ok m3 => Except.ok m3
        | Except.error PyErr.keyError =>
          Except.ok (_generate_fallback_analysis (fun n => g (200 + n)))
        | Except.error PyErr.typeError => Except.error PyErr.typeError) =
          (Except.ok m : Except PyErr _) := h
      rw [hm] at h2
      injection h2 with h2
      subst h2
      constructor
      · have hk := mapM_pair_keys (f := fun p => do
            let sc ← normalizeCat analysis g p.1 p.2
            pure (p.2, sc)) ?hf hm
        · rw [hk]
          exact List.enum_map_snd error_categories
        case hf =>
          intro p s hs
          obtain ⟨sc, -, hs⟩ := except_bind_ok_iff.mp hs
          rw [except_pure_ok_iff] at hs
          subst hs
          rfl
      · intro p hp
        obtain ⟨a, -, ha⟩ := mapM_ok_mem hm p hp
        obtain ⟨sc, hsc, ha⟩ := except_bind_ok_iff.mp ha
        rw [except_pure_ok_iff] at ha
        subst ha
        exact normalizeCat_bounds hsc
    | error e =>
      have h2 : (match error_categories.enum.mapM
          (fun p => do
            let sc ← normalizeCat analysis g p.1 p.2
            pure (p.2, sc)) with
        | Except.ok m3 => Except.ok m3
        | Except.error PyErr.keyError =>
          Except.ok (_generate_fallback_analysis (fun n => g (200 + n)))
        | Except.error PyErr.typeError => Except.error PyErr.typeError) =
          (Except.ok m : Except PyErr _) := h
      rw [hm] at h2
      cases e with
      | keyError =>
        injection h2 with h2
        subst h2
        refine ⟨fallback_keys _, fun p hp => ?_⟩
        obtain ⟨h1, h2, h3, -⟩ := fallback_bounds _ p hp
        exact ⟨by linarith, h2, h3⟩
      | typeError => exact absurd h2 (by simp)

/-- C9: whatever the API outcome (success, undecodable or malformed JSON,
missing categories, out-of-range values, timeout or any exception),
`analyze_paper` returns a mapping keyed exactly by `error_categories`, with
every confidence in `[0, 100]` and every issue count non-negative — no error
ever reaches the caller. -/
theorem C9_analyze_paper_total (outcome : ApiOutcome) (g : ℕ → ℕ) :
    ((analyze_paper outcome g).map Prod.fst = error_categories) ∧
    ∀ p ∈ analyze_paper outcome g,
      0 ≤ p.2.confidence ∧ p.2.confidence ≤ 100 ∧ 0 ≤ p.2.issues := by
  cases outcome with
  | failure =>
    refine ⟨fallback_keys (fun n => g (300 + n)), fun p hp => ?_⟩
    obtain ⟨h1, h2, h3, -⟩ := fallback_bounds (fun n => g (300 + n)) p hp
    exact ⟨by linarith, h2, h3⟩
  | response content =>
    rw [analyze_paper]
    cases hp : _parse_analysis_response content g with
    | ok m => exact parse_complete hp
    | error e =>
      refine ⟨fallback_keys _, fun p hp2 => ?_⟩
      obtain ⟨h1, h2, h3, -⟩ := fallback_bounds _ p hp2
      exact ⟨by linarith, h2, h3⟩

/-- C9 witness: a malformed response (the JSON is a bare string) still
yields the complete, in-range mapping. -/
theorem C9_witness :
    ((analyze_paper (ApiOutcome.response (some (Json.str "oops"))) (fun _ => 0)).map
      Prod.fst = error_categories) ∧
    ∀ p ∈ analyze_paper (ApiOutcome.response (some (Json.str "oops"))) (fun _ => 0),
      0 ≤ p.2.confidence ∧ p.2.confidence ≤ 100 ∧ 0 ≤ p.2.issues :=
  C9_analyze_paper_total (ApiOutcome.response (some (Json.str "oops"))) (fun _ => 0)

/-- The table row `process_paper` builds from one paper's analysis mapping:
title, published, then the per-category confidence and issues columns. -/
def rowOfAnalysis (title pub : String) (m : List (String × CatScore)) : Row :=
  [("title", Value.str title), ("published", Value.str pub)] ++
  m.map (fun p => (confCol p.1, Value.num p.2.confidence)) ++
  m.map (fun p => (issuesCol p.1, Value.num p.2.issues))

/-- Appending a row whose issue count for `c` is at most `3` leaves the
category's high-severity count unchanged. -/
theorem high_append_le3 (df : DataFrame) (c : String) (r : Row)
    (h : toQ (cellOf r (issuesCol c)) ≤ 3) :
    (severityOf (issuesOf ⟨df.cols, df.rows ++ [r]⟩ c)).high =
      (severityOf (issuesOf df c)).high := by
  show (issuesOf ⟨df.cols, df.rows ++ [r]⟩ c).countP (fun q => decide (3 < q)) =
    (issuesOf df c).countP (fun q => decide (3 < q))
  rw [issuesOf, issuesOf]
  show ((df.rows ++ [r]).map _).countP _ = _
  rw [List.map_append, List.countP_append]
  have hz : (([r] : List Row).map (fun x => toQ (cellOf x (issuesCol c)))).countP
      (fun q => decide (3 < q)) = 0 := by
    rw [List.map_cons, List.map_nil, List.countP_cons, List.countP_nil,
      decide_eq_false (not_lt.mpr h)]
    rfl
  rw [hz, Nat.add_zero]

/-- C10: every fallback entry has confidence in `[60, 100]` and an issue
count in `[0, 3]`; consequently appending a row built entirely from a
fallback analysis never increments any category's high-severity bucket
(`issues > 3`), so masked API failures can inflate the low/medium counts but
never the high count. -/
theorem C10_fallback_no_high (g : ℕ → ℕ) :
    (∀ p ∈ _generate_fallback_analysis g,
      60 ≤ p.2.confidence ∧ p.2.confidence ≤ 100 ∧
      0 ≤ p.2.issues ∧ p.2.issues ≤ 3) ∧
    (∀ df : DataFrame, ∀ title pub : String, ∀ c ∈ error_categories,
      (severityOf (issuesOf
        ⟨df.cols, df.rows ++
          [rowOfAnalysis title pub (_generate_fallback_analysis g)]⟩ c)).high =
      (severityOf (issuesOf df c)).high) := by
  refine ⟨fallback_bounds g, ?_⟩
  intro df title pub c hc
  apply high_append_le3
  fin_cases hc
  · rw [show toQ (cellOf (rowOfAnalysis title pub (_generate_fallback_analysis g))
        (issuesCol "Methodology")) = ((randint 0 3 (g 1) : ℕ) : ℚ) from rfl]
    exact_mod_cast (randint_bounds 0 3 (g 1) (by norm_num)).2
  · rw [show toQ (cellOf (rowOfAnalysis title pub (_generate_fallback_analysis g))
        (issuesCol "Statistical Analysis")) = ((randint 0 3 (g 3) : ℕ) : ℚ) from rfl]
    exact_mod_cast (randint_bounds 0 3 (g 3) (by norm_num)).2
  · rw [show toQ (cellOf (rowOfAnalysis title pub (_generate_fallback_analysis g))
        (issuesCol "Data Integrity")) = ((randint 0 3 (g 5) : ℕ) : ℚ) from rfl]
    exact_mod_cast (randint_bounds 0 3 (g 5) (by norm_num)).2
  · rw [show toQ (cellOf (rowOfAnalysis title pub (_generate_fallback_analysis g))
        (issuesCol "Citation Issues")) = ((randint 0 3 (g 7) : ℕ) : ℚ) from rfl]
    exact_mod_cast (randint_bounds 0 3 (g 7) (by norm_num)).2
  · rw [show toQ (cellOf (rowOfAnalysis title pub (_generate_fallback_analysis g))
        (issuesCol "Technical Accuracy")) = ((randint 0 3 (g 9) : ℕ) : ℚ) from rfl]
    exact_mod_cast (randint_bounds 0 3 (g 9) (by norm_num)).2

/-- C10 witness: appending a fallback row to the empty batch leaves the
high bucket of a category at zero. -/
theorem C10_witness :
    ("Methodology" ∈ error_categories) ∧
    (severityOf (issuesOf
      ⟨dfEmpty.cols, dfEmpty.rows ++
        [rowOfAnalysis "t" "2024-01-01" (_generate_fallback_analysis (fun _ => 0))]⟩
      "Methodology")).high =
      (severityOf (issuesOf dfEmpty "Methodology")).high :=
  ⟨by decide,
    (C10_fallback_no_high (fun _ => 0)).2 dfEmpty "t" "2024-01-01" "Methodology" (by decide)⟩
